import Mathlib

/-!
# pcsx2 netplay: the IOP poll hook and the netplay plugin

A shallow embedding of `pcsx2/Netplay/IOPHook.cpp` and `pcsx2/Netplay/NetplayPlugin.cpp`.

* Mutable C++ state is an explicit record that every operation takes and returns.
* Every call that leaves the translated code (the shoryu session, the dialog, the
  replay object, the console, threads, the real pad plugin) is appended to a
  chronological call log, so that "calls X", "never calls X" and "calls X before Y"
  are statements about that log.
* What such a call answers is not decided by the translated code.  It is read from
  an environment record whose fields map the call log so far to the answer, so the
  answers may change from one call to the next in any way whatsoever.
* Loops whose exit depends on the environment take a bound `fuel` on the number of
  iterations; running past the bound is the fault `Fault.fuel`.
* `int` is `Int` (no wrap-around is modelled: the counters involved never get near
  2^31), `u8` is `Nat`, a pointer that is only tested for null is a `Bool`.
-/

namespace Netplay

/-! ## Data -/

/-- Modelled from the spec: `Message` (Message.h is not part of the sources at hand),
the frame input record `input[0..N]` with N = 6 synchronized controller bytes. -/
structure Message where
  input : List Nat
deriving DecidableEq, Repr

/-- Modelled from the spec: the default constructor `Message()`, whose bytes are the
neutral values: buttons 0xFF idle (the two button bytes), analogs 0x7F centered. -/
def Message.init : Message := ⟨[0xff, 0xff, 0x7f, 0x7f, 0x7f, 0x7f]⟩

/-- The read `frame.input[index]`.  An index outside the array is undefined
behaviour in C++; the embedding answers 0 there and no theorem relies on it. -/
def Message.get (m : Message) (index : Int) : Nat :=
  if index < 0 then 0 else m.input.getD index.toNat 0

/-- The write `frame.input[index] = value` (no effect outside the array, where
the C++ behaviour is undefined). -/
def Message.put (m : Message) (index : Int) (value : Nat) : Message :=
  if index < 0 then m else ⟨m.input.set index.toNat value⟩

/-- The enum `SessionState` of NetplayPlugin. -/
inductive SessionState
  | SSNone
  | SSCancelled
  | SSReady
  | SSRunning
deriving DecidableEq, Repr

/-- Modelled from the spec: `shoryu::MessageType` (the shoryu headers are not part
of the sources at hand), the message types of the peer channel.  The plugin only
ever compares a session state with `Ready`. -/
inductive MessageType
  | None
  | Join
  | Accept
  | Reject
  | Delay
  | Ready
  | Input
  | Ack
  | Chat
  | EndSession
  | Ping
  | Pong
deriving DecidableEq, Repr

/-- The connection modes of `NetplaySettings::Mode`. -/
inductive NetplayMode
  | ConnectMode
  | HostMode
  | ObserveMode
deriving DecidableEq, Repr

/-- Modelled from the spec: `NetplaySettings` (NetplaySettings.h is not part of the
sources at hand), restricted to the fields that NetplayPlugin.cpp reads. -/
structure NetplaySettings where
  Mode : NetplayMode
  HostAddress : String
  HostPort : Int
  ListenPort : Int
  Username : String
  SaveReplay : Bool
  NumPlayers : Int
deriving DecidableEq, Repr

/-- What a call of `session::get(side, frame, timeout)` can do: fill the frame and
return true, return false (nothing arrived in time), or throw. -/
inductive GetResult
  | ok (frame : Message)
  | timeout
  | thrown
deriving DecidableEq, Repr

/-- Every call that the plugin makes on something outside NetplayPlugin.cpp. -/
inductive Call
  | session_new
  | userlist_handler
  | set_chatmessage_handler
  | bind (port : Int)
  | username (name : String)
  | state
  | send_end_session_request
  | delay
  | send
  | shutdown
  | unbind
  | next_frame
  | set (frame : Message)
  | get (side : Int) (timeout : Int)
  | side
  | num_players
  | end_session_request
  | frame
  | prepare_io_service
  | sleep (ms : Int)
  | time_ms
  | IsShown
  | Close
  | SetInputDelay (d : Int)
  | SetSendChatMessageHandler
  | thread_new (mode : NetplayMode)
  | thread_join
  | thread_detach
  | notify_one
  | notify_all
  | Replay_new
  | Replay_Mode_Recording
  | Replay_Write (side : Int) (frame : Message)
  | ConsoleErrorMT (msg : String)
  | ConsoleWarningMT (msg : String)
  | CoreThread_Reset
deriving DecidableEq, Repr

/-- The answers of everything outside NetplayPlugin.cpp, each as a function of the
calls made so far.  `set` answers false when `session::set` throws;
`connect_thread` answers, at a moment where the emulator thread sleeps, whether the
connect thread has finished and what `connection_func()` returned; `connection_func`
is what it returns when the emulator thread joins it before that. -/
structure Env where
  bind : List Call → Int → Bool
  state : List Call → MessageType
  delay : List Call → Int
  send : List Call → Bool
  set : List Call → Message → Bool
  get : List Call → Int → Int → GetResult
  side : List Call → Int
  num_players : List Call → Int
  end_session_request : List Call → Bool
  frame : List Call → Int
  time_ms : List Call → Int
  IsShown : List Call → Bool
  connect_thread : List Call → Option Bool
  connection_func : List Call → Bool

/-- The ways a run of the translated code can fail to return normally. -/
inductive Fault
  | fuel
  | null_session
  | null_dialog
  | uncaught_exception
  | terminate
deriving DecidableEq, Repr

/-- The data members of `class NetplayPlugin` that the translated methods use. -/
structure NetplayPlugin where
  _session : Bool
  _connect_thread : Bool
  _state : SessionState
  _is_initialized : Bool
  _is_stopped : Bool
  _game_name : String
  _my_frame : Message
  _replay : Bool
  _dialog : Bool
deriving DecidableEq, Repr

/-- The plugin object together with the log of the calls it has made. -/
structure World where
  self : NetplayPlugin
  log : List Call
deriving DecidableEq, Repr

/-- Record one outside call. -/
def World.call (w : World) (c : Call) : World :=
  { w with log := w.log ++ [c] }

/-- The constructor `NetplayPlugin()`.  It gives `_state` no value, so the value
that member starts with is an argument; the other members it does not name get the
values of their own default constructors. -/
def NetplayPlugin.init (state : SessionState) : NetplayPlugin :=
  { _session := false, _connect_thread := false, _state := state,
    _is_initialized := false, _is_stopped := false, _game_name := "",
    _my_frame := Message.init, _replay := false, _dialog := false }

/-! ## NetplayPlugin.cpp -/

/-- The drain loop of `EndSession`:
`while(_session->send()) { shoryu::sleep(17); if(try_count-- == 0) break; }`. -/
def EndSession.drain (env : Env) : Nat → World → Int → Except Fault World
  | 0, _, _ => .error Fault.fuel
  | n + 1, w, try_count =>
    if env.send w.log then
      let w := (w.call Call.send).call (Call.sleep 17)
      if try_count = 0 then .ok w
      else EndSession.drain env n w (try_count - 1)
    else .ok (w.call Call.send)

/-- The dialog block of EndSession:
`if(dialog->IsShown()) { dialog->Close(); _dialog = nullptr; }`. -/
def EndSession.closeDialog (env : Env) (w : World) : World :=
  if env.IsShown w.log then
    { ((w.call Call.IsShown).call Call.Close) with self._dialog := false }
  else w.call Call.IsShown

/-- The session block of EndSession, `if(_session) { ... }`: the end-session
request and the drain loop when the session is Ready, then shutdown and unbind. -/
def EndSession.closeSession (fuel : Nat) (env : Env) (w : World) : Except Fault World :=
  if w.self._session then
    if env.state w.log = MessageType.Ready then do
      let w := (w.call Call.state).call Call.send_end_session_request
      let w ← EndSession.drain env fuel (w.call Call.delay) (env.delay w.log * 4)
      pure ((w.call Call.shutdown).call Call.unbind)
    else pure (((w.call Call.state).call Call.shutdown).call Call.unbind)
  else pure w

/-- The thread block of EndSession, `if(_connect_thread) { ... }`.  Joining the
connect thread lets that thread finish: if it has not yet written `_state` (which
is then still SSNone) it writes `connection_func() ? SSReady : SSCancelled` before
the join returns. -/
def EndSession.joinThread (env : Env) (w : World) : World :=
  if w.self._connect_thread then
    { ((w.call Call.notify_all).call Call.thread_join) with
      self._state :=
        if w.self._state = SessionState.SSNone then
          (if env.connection_func (w.log ++ [Call.notify_all]) then SessionState.SSReady
           else SessionState.SSCancelled)
        else w.self._state,
      self._connect_thread := false }
  else w

/-- The method `NetplayPlugin::EndSession()`. -/
def EndSession (fuel : Nat) (env : Env) (w : World) : Except Fault World := do
  let w := EndSession.closeDialog env w
  let w ← EndSession.closeSession fuel env w
  let w := EndSession.joinThread env w
  pure { w with self._session := false }

/-- The method `NetplayPlugin::Stop()`. -/
def Stop (fuel : Nat) (env : Env) (w : World) : Except Fault World := do
  let w ← EndSession fuel env { w with self._is_stopped := true }
  pure (w.call Call.CoreThread_Reset)

/-- The method `NetplayPlugin::NextFrame()`. -/
def NextFrame (w : World) : World :=
  if w.self._is_stopped ∨ ¬ w.self._session then w
  else
    let w := { w with self._my_frame := Message.init }
    let w := w.call Call.next_frame
    if w.self._state = SessionState.SSReady then
      let w := if w.self._connect_thread then
          { (w.call Call.thread_detach) with self._connect_thread := false }
        else w
      { w with self._state := SessionState.SSRunning }
    else w

/-- The try block of AcceptInput with its catch block:
`try { _session->set(_my_frame); } catch(std::exception& e) { Stop(); ConsoleErrorMT(...); }`.
The text `e.what()` of the exception is not modelled; the word `exception` stands
for it in the console message, here and in HandleIO. -/
def AcceptInput.publish (fuel : Nat) (env : Env) (w : World) : Except Fault World :=
  if env.set w.log w.self._my_frame then .ok (w.call (Call.set w.self._my_frame))
  else do
    let w ← Stop fuel env (w.call (Call.set w.self._my_frame))
    pure (w.call (Call.ConsoleErrorMT "NETPLAY: exception. Interrupting session."))

/-- The replay block of AcceptInput,
`if(_replay) { Message f; _session->get(side, f, 0); _replay->Write(side, f); }`.
It uses `_session` without a test; an exception of `get` is caught nowhere. -/
def AcceptInput.record (env : Env) (w : World) (side : Int) : Except Fault World :=
  if w.self._replay then
    if ¬ w.self._session then .error Fault.null_session
    else
      match env.get w.log side 0 with
      | GetResult.thrown => .error Fault.uncaught_exception
      | GetResult.ok f => .ok ((w.call (Call.get side 0)).call (Call.Replay_Write side f))
      | GetResult.timeout =>
        .ok ((w.call (Call.get side 0)).call (Call.Replay_Write side Message.init))
  else .ok w

/-- The method `NetplayPlugin::AcceptInput(int side)`.  After the catch block the method goes
on to the replay block, whatever the catch block did to `_session`. -/
def AcceptInput (fuel : Nat) (env : Env) (w : World) (side : Int) : Except Fault World :=
  if w.self._is_stopped ∨ ¬ w.self._session then .ok w
  else do
    let w ← AcceptInput.publish fuel env w
    AcceptInput.record env w side

/-- The method `NetplayPlugin::RemapVibrate(int pad)`. -/
def RemapVibrate (env : Env) (w : World) (pad : Int) : Int × World :=
  if w.self._is_stopped ∨ ¬ w.self._session then (pad, w)
  else if pad = 0 then (env.side w.log, w.call Call.side)
  else (-1, w)

/-- The delay block of the start wait in HandleIO,
`if(delay != _session->delay()) { delay = _session->delay(); _dialog->SetInputDelay(delay); }`:
the new value of the local `delay` and the world left. -/
def HandleIO.pollDelay (env : Env) (w : World) (delay : Int) : Except Fault (Int × World) :=
  if delay ≠ env.delay w.log then
    if ¬ w.self._dialog then .error Fault.null_dialog
    else
      let d2 := env.delay (w.log ++ [Call.delay])
      .ok (d2, ((w.call Call.delay).call Call.delay).call (Call.SetInputDelay d2))
  else .ok (delay, w.call Call.delay)

/-- What the connect thread did while the emulator thread slept: the environment
says whether it has finished, and if so the thread has written
`_state = connection_func() ? SSReady : SSCancelled`. -/
def HandleIO.connectThread (env : Env) (w : World) : World :=
  match env.connect_thread w.log with
  | some r =>
    if w.self._connect_thread then
      { w with self._state := if r then SessionState.SSReady else SessionState.SSCancelled }
    else w
  | none => w

/-- The start wait of HandleIO,
`while(_state == SSNone) { ...; shoryu::sleep(150); }`; the argument after the
iteration bound is the local `delay`. -/
def HandleIO.wait (fuel : Nat) (env : Env) : Nat → World → Int → Except Fault World
  | 0, w, _ => if w.self._state = SessionState.SSNone then .error Fault.fuel else .ok w
  | n + 1, w, delay =>
    if w.self._state ≠ SessionState.SSNone then .ok w
    else if ¬ w.self._session then Stop fuel env w
    else if env.end_session_request w.log then Stop fuel env (w.call Call.end_session_request)
    else
      match HandleIO.pollDelay env (w.call Call.end_session_request) delay with
      | .error e => .error e
      | .ok (delay, w) =>
        HandleIO.wait fuel env n ( HandleIO.connectThread env (w.call (Call.sleep 150))) delay

/-- The time that the input wait of HandleIO gives one `get`:
`until_timeout = timeout - time_ms(); if (until_timeout < 1) until_timeout = 1;`. -/
def HandleIO.untilTimeout (timeout now : Int) : Int :=
  if timeout - now < 1 then 1 else timeout - now

/-- The input wait of HandleIO, the `while(true)` inside the try block; `timeout`
is the deadline `shoryu::time_ms() + 10000` and `frame` the local `Message frame`.
An exception thrown by `get` lands in the catch block. -/
def HandleIO.recv (fuel : Nat) (env : Env) (side timeout : Int) :
    Nat → World → Message → Except Fault (Message × World)
  | 0, _, _ => .error Fault.fuel
  | n + 1, w, frame =>
    let now := env.time_ms w.log
    let w := w.call Call.time_ms
    let until_timeout := HandleIO.untilTimeout timeout now
    match env.get w.log side until_timeout with
    | GetResult.ok f => .ok (f, w.call (Call.get side until_timeout))
    | GetResult.thrown => do
      let w ← Stop fuel env (w.call (Call.get side until_timeout))
      pure (frame, w.call (Call.ConsoleErrorMT "NETPLAY: exception."))
    | GetResult.timeout =>
      let w := w.call (Call.get side until_timeout)
      let w := w.call Call.send
      let req := env.end_session_request w.log
      let w := w.call Call.end_session_request
      if req then .ok (frame, w)
      else
        let now2 := env.time_ms w.log
        let w := w.call Call.time_ms
        if timeout ≤ now2 then do
          let fr := env.frame w.log
          let w := w.call Call.frame
          let w ← Stop fuel env w
          pure (frame, w.call
            (Call.ConsoleErrorMT ("NETPLAY: Timeout on frame " ++ toString fr ++ ".")))
        else HandleIO.recv fuel env side timeout n w frame

/-- The block `if( _state == SSCancelled && !_is_stopped ) { Stop(); }` of HandleIO. -/
def HandleIO.cancelled (fuel : Nat) (env : Env) (w : World) : Except Fault World :=
  if w.self._state = SessionState.SSCancelled ∧ ¬ w.self._is_stopped then Stop fuel env w
  else .ok w

/-- The block of HandleIO
`if( _session && _session->end_session_request() && !_is_stopped ) { ... }`. -/
def HandleIO.checkEnd (fuel : Nat) (env : Env) (w : World) : Except Fault World :=
  if w.self._session then
    if env.end_session_request w.log ∧ ¬ w.self._is_stopped then do
      let fr := env.frame (w.log ++ [Call.end_session_request])
      let w ← Stop fuel env ((w.call Call.end_session_request).call Call.frame)
      pure (w.call
        (Call.ConsoleWarningMT ("NETPLAY: Session ended on frame " ++ toString fr ++ ".")))
    else .ok (w.call Call.end_session_request)
  else .ok w

/-- The first part of HandleIO, from `int delay = _session->delay()` down to the
end-of-session check: wait for the session to start or be cancelled, stop when it
was cancelled, stop when a peer asked to end it. -/
def HandleIO.start (fuel : Nat) (env : Env) (w : World) : Except Fault World := do
  let delay := env.delay w.log
  let w := w.call Call.delay
  let w := if w.self._state = SessionState.SSNone then w.call Call.notify_one else w
  let w ← HandleIO.wait fuel env fuel w delay
  let w ← HandleIO.cancelled fuel env w
  HandleIO.checkEnd fuel env w

/-- The second part of HandleIO, from the second
`if(_is_stopped || !_session) return value;` to the end. -/
def HandleIO.io (fuel : Nat) (env : Env) (w : World) (side index : Int) (value : Nat) :
    Except Fault (Nat × World) := do
  if w.self._is_stopped ∨ ¬ w.self._session then pure (value, w)
  else
    let np := env.num_players w.log
    let w := w.call Call.num_players
    if side ≥ np then pure (Message.init.get index, w)
    else
      let w := { w with self._my_frame :=
        if side = 0 then w.self._my_frame.put index value else w.self._my_frame }
      let t0 := env.time_ms w.log
      let w := w.call Call.time_ms
      let (frame, w) ← HandleIO.recv fuel env side (t0 + 10000) fuel w Message.init
      pure (frame.get index, w)

/-- The method `HandleIO(int side, int index, u8 value)` of NetplayPlugin, called by
IOPHook when a pad needs IO. -/
def HandleIO (fuel : Nat) (env : Env) (w : World) (side index : Int) (value : Nat) :
    Except Fault (Nat × World) := do
  if w.self._is_stopped ∨ ¬ w.self._session then pure (value, w)
  else
    let w ← HandleIO.start fuel env w
    HandleIO.io fuel env w side index value

/-- The block `Stop(); ConsoleErrorMT(msg); return;` that ends every rejecting
branch of Open. -/
def Open.reject (fuel : Nat) (env : Env) (w : World) (msg : String) : Except Fault World := do
  let w ← Stop fuel env w
  pure (w.call (Call.ConsoleErrorMT msg))

/-- The part of Open after the three checks of the settings, from
`recursive_lock lock(_mutex)` on.  Replacing a connect thread that was never joined
or detached destroys a joinable `std::thread`, which terminates the process. -/
def Open.connect (fuel : Nat) (env : Env) (settings : NetplaySettings) (w : World) :
    Except Fault World :=
  if ¬ env.IsShown w.log then Stop fuel env (w.call Call.IsShown)
  else
    let w := (w.call Call.IsShown).call Call.prepare_io_service
    let w := { (w.call Call.session_new) with self._session := true }
    let w := (w.call Call.userlist_handler).call Call.set_chatmessage_handler
    let localPort := if settings.Mode = NetplayMode.HostMode then settings.ListenPort else 0
    if env.bind w.log localPort then
      let w := { (w.call (Call.bind localPort)) with self._state := SessionState.SSNone }
      let w := w.call (Call.username settings.Username)
      let w :=
        if settings.SaveReplay then
          { ((w.call Call.Replay_new).call Call.Replay_Mode_Recording) with
            self._replay := true }
        else w
      let w := { w with self._game_name := "" }
      let w := w.call Call.SetSendChatMessageHandler
      if w.self._connect_thread then .error Fault.terminate
      else .ok { (w.call (Call.thread_new settings.Mode)) with self._connect_thread := true }
    else
      Open.reject fuel env (w.call (Call.bind localPort))
        ("NETPLAY: Unable to bind port " ++ toString localPort ++ ".")

/-- The method `NetplayPlugin::Open()`; `settings` is `g_Conf->Netplay`. -/
def Open (fuel : Nat) (env : Env) (settings : NetplaySettings) (w : World) :
    Except Fault World :=
  let w := { w with self._dialog := true, self._is_stopped := false }
  if settings.HostPort ≤ 0 ∨ settings.HostPort > 65535 then
    Open.reject fuel env w
      ("NETPLAY: Invalid host port: " ++ toString settings.HostPort ++ ".")
  else if settings.ListenPort ≤ 0 ∨ settings.ListenPort > 65535 then
    Open.reject fuel env w
      ("NETPLAY: Invalid listen port: " ++ toString settings.ListenPort ++ ".")
  else if settings.Mode = NetplayMode.ConnectMode ∧ settings.HostAddress.length = 0 then
    Open.reject fuel env w "NETPLAY: Invalid hostname."
  else Open.connect fuel env settings w

/-- Modelled from the spec: `EmulatorSyncState` (its header is not part of the
sources at hand), the sync-state snapshot with the three fields that
CheckSyncStates names; the two char arrays are byte lists whose length is the
`sizeof` of the array. -/
structure EmulatorSyncState where
  biosVersion : List Nat
  discId : List Nat
  skipMpeg : Bool
deriving DecidableEq, Repr

/-- The C library `memcmp(a, b, n)` on byte lists: the sign of the first
difference among the first n bytes, 0 when there is none. -/
def memcmp : List Nat → List Nat → Nat → Int
  | a :: as, b :: bs, n + 1 =>
    if a < b then -1 else if b < a then 1 else memcmp as bs n
  | _, _, _ => 0

/-- The scan `for(i = 0; i < len; i++) if(discId[i] == 0) { len = i; break; }`:
the index of the first zero byte, the full length when there is none. -/
def discIdLen : List Nat → Nat
  | [] => 0
  | b :: bs => if b = 0 then 0 else discIdLen bs + 1

/-- The method `NetplayPlugin::CheckSyncStates(s1, s2)`: the value returned and the console
calls made.  `GetDiscNameById` is `Utilities::GetDiscNameById`, applied to the disc
identifier cut at its first zero byte. -/
def CheckSyncStates (GetDiscNameById : List Nat → String) (s1 s2 : EmulatorSyncState) :
    Bool × List Call :=
  if memcmp s1.biosVersion s2.biosVersion s1.biosVersion.length ≠ 0 then
    (false, [Call.ConsoleErrorMT "NETPLAY: Bios version mismatch."])
  else if memcmp s1.discId s2.discId s1.discId.length ≠ 0 then
    let s1discId := s1.discId.take (discIdLen s1.discId)
    let s2discId := s2.discId.take (discIdLen s2.discId)
    (false, [Call.ConsoleErrorMT ("NETPLAY: You are trying to boot different games: " ++
      GetDiscNameById s1discId ++ " and " ++ GetDiscNameById s2discId)])
  else if s1.skipMpeg ≠ s2.skipMpeg then
    (false, [Call.ConsoleErrorMT "NETPLAY: SkipMpegHack settings mismatch."])
  else (true, [])

/-! ## IOPHook.cpp -/

/-- The interface `IOPHook` (IOPHook.h is not part of the sources at hand): the
four virtual methods that IOPHook.cpp calls through `g_IOPHook`, over the state
`σ` of the object behind the pointer. -/
structure IOPHook (σ : Type) where
  NextFrame : σ → Except Fault σ
  AcceptInput : σ → Int → Except Fault σ
  RemapVibrate : σ → Int → Except Fault (Int × σ)
  HandleIO : σ → Int → Int → Nat → Except Fault (Nat × σ)

/-- NetplayPlugin as the object behind `g_IOPHook`. -/
def NetplayPlugin.hook (fuel : Nat) (env : Env) : IOPHook World where
  NextFrame w := .ok (NextFrame w)
  AcceptInput w side := AcceptInput fuel env w side
  RemapVibrate w pad := .ok (RemapVibrate env w pad)
  HandleIO w side index value := HandleIO fuel env w side index value

/-- Every call that IOPHook.cpp makes: on the hook object and on the real pad
plugin. -/
inductive PadCall
  | AcceptInput (side : Int)
  | NextFrame
  | RemapVibrate (pad : Int)
  | HandleIO (side index : Int) (value : Nat)
  | PADstartPoll (port : Int)
  | PADpoll (value : Nat)
  | PADsetSlot (port slot : Nat)
deriving DecidableEq, Repr

/-- The answers of the real pad plugin, each as a function of the calls made so far. -/
structure PadEnv where
  PADstartPoll : List PadCall → Int → Nat
  PADpoll : List PadCall → Nat → Nat
  PADsetSlot : List PadCall → Nat → Nat → Int

/-- The file-scope variables of IOPHook.cpp, the state `hook` of the object that
`g_IOPHook` points to when it is not null, and the calls made so far.  The two
arrays are total maps; an index outside `g_pollSlot[2]` or `g_vibrationRemap[8][2]`
is undefined behaviour in C++, where the total map has an entry of its own. -/
structure IOP (σ : Type) where
  g_IOPHook : Bool
  hook : σ
  g_currentCommand : Int
  g_pollPort : Int
  g_pollSlot : Int → Int
  g_pollIndex : Int
  g_hookFrameNum : Int
  g_sendPad : Int
  g_vibrationRemap : Int → Int → Nat
  g_active : Bool
  trace : List PadCall

/-- The assignment `a[i] = v` on an array held as a total map. -/
def store1 {α : Type} (a : Int → α) (i : Int) (v : α) : Int → α :=
  fun j => if j = i then v else a j

/-- The assignment `a[i][k] = v` on an array of arrays held as a total map. -/
def store2 {α : Type} (a : Int → Int → α) (i k : Int) (v : α) : Int → Int → α :=
  fun j l => if j = i ∧ l = k then v else a j l

/-- The value of the macro NETPLAY_SYNC_NUM_INPUTS: NETPLAY_ANALOG_STICKS is defined. -/
def NETPLAY_SYNC_NUM_INPUTS : Int := 6

/-- The pad that is being polled, `NET_CurrentPad()`. -/
def NET_CurrentPad {σ : Type} (s : IOP σ) : Int :=
  let slot := s.g_pollSlot s.g_pollPort
  if slot ≠ 0 then slot + (if s.g_pollPort = 0 then 4 else 1)
  else s.g_pollPort

/-- The wrapper `NETPADstartPoll(int port)`: the byte returned and the state left. -/
def NETPADstartPoll {σ : Type} (h : IOPHook σ) (pe : PadEnv) (s : IOP σ) (port : Int) :
    Except Fault (Nat × IOP σ) := do
  let s ←
    if s.g_IOPHook ∧ s.g_sendPad ≠ 0 then do
      let hk ← h.AcceptInput s.hook 0
      pure { s with hook := hk, trace := s.trace ++ [PadCall.AcceptInput 0], g_sendPad := 0 }
    else pure s
  let s := { s with g_pollPort := port - 1, g_pollIndex := 0 }
  let s ←
    if NET_CurrentPad s = 0 then
      if s.g_IOPHook ∧ s.g_currentCommand = 0x42 then do
        let s ←
          if s.g_hookFrameNum > 0 then do
            let hk ← h.NextFrame s.hook
            pure { s with hook := hk, trace := s.trace ++ [PadCall.NextFrame] }
          else pure s
        pure { s with g_hookFrameNum := s.g_hookFrameNum + 1 }
      else pure s
    else pure s
  pure (pe.PADstartPoll s.trace port, { s with trace := s.trace ++ [PadCall.PADstartPoll port] })

/-- The vibration block of NETPADpoll (the first `if`, on poll index 2 and 3): the
byte to hand to the real pad plugin and the state left; `pad` is the local
`int pad = NET_CurrentPad()`. -/
def NETPADpoll.vibrate {σ : Type} (h : IOPHook σ) (s : IOP σ) (pad : Int) (value : Nat) :
    Except Fault (Nat × IOP σ) := do
  if s.g_IOPHook ∧ s.g_currentCommand = 0x42 ∧ s.g_pollIndex ≥ 2 ∧ s.g_pollIndex ≤ 3 then
    let (remap, hk) ← h.RemapVibrate s.hook pad
    let s := { s with hook := hk, trace := s.trace ++ [PadCall.RemapVibrate pad] }
    let s := { s with g_vibrationRemap := store2 s.g_vibrationRemap pad (s.g_pollIndex - 2) value }
    if remap = -1 then pure (0, s)
    else if remap ≠ pad then pure (s.g_vibrationRemap remap (s.g_pollIndex - 2), s)
    else pure (value, s)
  else pure (value, s)

/-- The block of NETPADpoll after the call of PADpoll (the second `if`): the byte
to return and the state left; `value` is what PADpoll returned. -/
def NETPADpoll.sync {σ : Type} (h : IOPHook σ) (s : IOP σ) (pad : Int) (value : Nat) :
    Except Fault (Nat × IOP σ) := do
  if s.g_IOPHook ∧ s.g_currentCommand = 0x42 then
    let s := { s with g_sendPad := if pad = 0 ∧ s.g_pollIndex = 0 then 1 else s.g_sendPad }
    if s.g_pollIndex < 2 then pure (value, s)
    else if s.g_pollIndex ≤ 1 + NETPLAY_SYNC_NUM_INPUTS ∧ s.g_pollIndex < 8 then
      let (v, hk) ← h.HandleIO s.hook pad (s.g_pollIndex - 2) value
      pure (v, { s with hook := hk,
                        trace := s.trace ++ [ PadCall.HandleIO pad (s.g_pollIndex - 2) value] })
    else if s.g_pollIndex > 3 ∧ s.g_pollIndex < 8 then pure (0x7f, s)
    else pure (0xff, s)
  else pure (value, s)

/-- The wrapper `NETPADpoll(u8 value)`: the byte returned and the state left. -/
def NETPADpoll {σ : Type} (h : IOPHook σ) (pe : PadEnv) (s : IOP σ) (value : Nat) :
    Except Fault (Nat × IOP σ) := do
  let pad := NET_CurrentPad s
  let s := { s with
    g_currentCommand := if s.g_pollIndex = 0 then (value : Int) else s.g_currentCommand }
  let (value, s) ← NETPADpoll.vibrate h s pad value
  let padByte := pe.PADpoll s.trace value
  let s := { s with trace := s.trace ++ [PadCall.PADpoll value] }
  let (value, s) ← NETPADpoll.sync h s pad padByte
  pure (value, { s with g_pollIndex := s.g_pollIndex + 1 })

/-- The wrapper `NETPADsetSlot(u8 port, u8 slot)`: the value returned and the state left. -/
def NETPADsetSlot {σ : Type} (pe : PadEnv) (s : IOP σ) (port slot : Nat) : Int × IOP σ :=
  let s := { s with g_pollPort := (port : Int) - 1 }
  let s := { s with g_pollSlot := store1 s.g_pollSlot s.g_pollPort ((slot : Int) - 1) }
  (pe.PADsetSlot s.trace port slot, { s with trace := s.trace ++ [PadCall.PADsetSlot port slot] })

/-- The function `HookIOP(IOPHook* hook)` for a hook that is not null: `hook` is the state of
the object the pointer refers to. -/
def HookIOP {σ : Type} (s : IOP σ) (hook : σ) : IOP σ :=
  { s with
    g_IOPHook := true, hook := hook, g_currentCommand := 0, g_pollPort := 0,
    g_pollIndex := 0, g_hookFrameNum := 0, g_sendPad := 0,
    g_vibrationRemap := fun i k =>
      if 0 ≤ i ∧ i < 8 ∧ 0 ≤ k ∧ k < 2 then 0 else s.g_vibrationRemap i k,
    g_active := true }

/-- The function `UnhookIOP()`. -/
def UnhookIOP {σ : Type} (s : IOP σ) : IOP σ :=
  { s with g_IOPHook := false, g_active := false }

/-- The variables of IOPHook.cpp as their initializers leave them, before any
call; `g_vibrationRemap` has static storage and starts zeroed. -/
def IOP.init {σ : Type} (hook : σ) : IOP σ :=
  { g_IOPHook := false, hook := hook, g_currentCommand := -1, g_pollPort := -1,
    g_pollSlot := fun _ => 0, g_pollIndex := -1, g_hookFrameNum := -1, g_sendPad := 0,
    g_vibrationRemap := fun _ _ => 0, g_active := false, trace := [] }

/-- One call that the emulator makes on the wrappers of IOPHook.cpp. -/
inductive Op
  | setSlot (port slot : Nat)
  | startPoll (port : Int)
  | poll (value : Nat)
deriving DecidableEq, Repr

/-- The state after one wrapper call. -/
def step {σ : Type} (h : IOPHook σ) (pe : PadEnv) (s : IOP σ) : Op → Except Fault (IOP σ)
  | Op.setSlot port slot => .ok (NETPADsetSlot pe s port slot).2
  | Op.startPoll port => (NETPADstartPoll h pe s port).map Prod.snd
  | Op.poll value => (NETPADpoll h pe s value).map Prod.snd

/-- The state after a sequence of wrapper calls. -/
def run {σ : Type} (h : IOPHook σ) (pe : PadEnv) : IOP σ → List Op → Except Fault (IOP σ)
  | s, [] => .ok s
  | s, op :: ops =>
    match step h pe s op with
    | .ok s1 => run h pe s1 ops
    | .error e => .error e

/-! ## Example inputs -/

/-- The record that the example session holds for a side: side 0 has the bytes
0x10..0x15, every other side 0x20..0x25. -/
def Examples.record (side : Int) : Message :=
  if side = 0 then ⟨[0x10, 0x11, 0x12, 0x13, 0x14, 0x15]⟩
  else ⟨[0x20, 0x21, 0x22, 0x23, 0x24, 0x25]⟩

/-- An example environment: a session of two players in which the local player
has the side `side`, with delay 1, whose queues answer every get at once, where
nothing is left to send and nobody asks to end the session; the dialog is shown
and bind succeeds. -/
def Examples.env (side : Int) : Env :=
  { bind := fun _ _ => true, state := fun _ => MessageType.Ready, delay := fun _ => 1,
    send := fun _ => false, set := fun _ _ => true,
    get := fun _ s _ => GetResult.ok (Examples.record s), side := fun _ => side,
    num_players := fun _ => 2, end_session_request := fun _ => false,
    frame := fun _ => 0, time_ms := fun _ => 0, IsShown := fun _ => true,
    connect_thread := fun _ => none, connection_func := fun _ => true }

/-- A plugin on which nothing has been called yet. -/
def Examples.fresh : World :=
  { self := NetplayPlugin.init SessionState.SSNone, log := [] }

/-- A plugin with a running session. -/
def Examples.live : World :=
  { self := { NetplayPlugin.init SessionState.SSRunning with _session := true, _dialog := true },
    log := [] }

/-- Example settings: Connect mode with an empty host address and valid ports. -/
def Examples.connectNoHost : NetplaySettings :=
  { Mode := NetplayMode.ConnectMode, HostAddress := "", HostPort := 4000, ListenPort := 4000,
    Username := "B", SaveReplay := false, NumPlayers := 2 }

/-- Example settings: Observe mode with an empty host address and valid ports. -/
def Examples.observeNoHost : NetplaySettings :=
  { Mode := NetplayMode.ObserveMode, HostAddress := "", HostPort := 4000, ListenPort := 4000,
    Username := "B", SaveReplay := false, NumPlayers := 2 }

/-- An example of the real pad plugin: it answers every poll byte with its
successor modulo 256. -/
def Examples.pad : PadEnv :=
  { PADstartPoll := fun _ _ => 0xff, PADpoll := fun _ v => (v + 1) % 256,
    PADsetSlot := fun _ _ _ => 1 }

/-- An example sync state: a BIOS version, the disc identifier "A" followed by a
zero byte and one more byte `tail`, and the skipMpeg toggle off. -/
def Examples.syncState (tail : Nat) : EmulatorSyncState :=
  { biosVersion := [0x32, 0x30, 0x30, 0x00], discId := [0x41, 0x00, tail], skipMpeg := false }

/-- The variables of IOPHook.cpp right after `HookIOP` has installed the running
example plugin. -/
def Examples.hooked : IOP World :=
  HookIOP (IOP.init Examples.live) Examples.live

/-- The example hook state in the middle of a 0x42 command, about to poll index 2. -/
def Examples.polling : IOP World :=
  { Examples.hooked with g_currentCommand := 0x42, g_pollPort := 0, g_pollIndex := 2 }

/-- An example run of three frames: three 0x42 commands on pad 0, each followed by
the NETPADstartPoll of the next command. -/
def Examples.threeFrames : List Op :=
  [Op.poll 0x42, Op.startPoll 1, Op.poll 0x42, Op.startPoll 1, Op.poll 0x42, Op.startPoll 1]

/-! ## Reading the call log -/

/-- The log `l2` continues the log `l1` with calls that all satisfy `P`. -/
def LogExt {α : Type} (P : α → Bool) (l1 l2 : List α) : Prop :=
  ∃ added, l2 = l1 ++ added ∧ ∀ c ∈ added, P c = true

/-- The calls that EndSession and Stop can make. -/
def Call.teardown : Call → Bool
  | Call.IsShown => true
  | Call.Close => true
  | Call.state => true
  | Call.send_end_session_request => true
  | Call.delay => true
  | Call.send => true
  | Call.sleep _ => true
  | Call.shutdown => true
  | Call.unbind => true
  | Call.notify_all => true
  | Call.thread_join => true
  | Call.CoreThread_Reset => true
  | _ => false

/-- The call is a `session::get`. -/
def Call.isGet : Call → Bool
  | Call.get _ _ => true
  | _ => false

/-- The call is a `session::bind`. -/
def Call.isBind : Call → Bool
  | Call.bind _ => true
  | _ => false

/-- The call is a `session::set`. -/
def Call.isSet : Call → Bool
  | Call.set _ => true
  | _ => false

/-- The calls that start a session: creating it, binding it, spawning the connect
thread. -/
def Call.opens : Call → Bool
  | Call.session_new => true
  | Call.bind _ => true
  | Call.thread_new _ => true
  | _ => false

/-- The calls that the first part of HandleIO can make. -/
def Call.starts : Call → Bool
  | Call.end_session_request => true
  | Call.SetInputDelay _ => true
  | Call.notify_one => true
  | Call.frame => true
  | Call.ConsoleWarningMT _ => true
  | c => c.teardown

/-- The calls that the input wait of HandleIO can make for the pad `side`: its
`session::get` calls are on that side. -/
def Call.receives (side : Int) : Call → Bool
  | Call.get s _ => decide (s = side)
  | Call.num_players => true
  | Call.time_ms => true
  | Call.end_session_request => true
  | Call.frame => true
  | Call.ConsoleErrorMT _ => true
  | c => c.teardown

/-- The members that neither teardown nor waiting touches are the same in both
worlds. -/
def Keeps (w w' : World) : Prop :=
  w'.self._my_frame = w.self._my_frame ∧ w'.self._replay = w.self._replay ∧
  w'.self._is_initialized = w.self._is_initialized

/-- Every method of the hook object returns, whatever its state and arguments. -/
def IOPHook.returns {σ : Type} (h : IOPHook σ) : Prop :=
  (∀ x, ∃ r, h.NextFrame x = .ok r) ∧ (∀ x side, ∃ r, h.AcceptInput x side = .ok r) ∧
  (∀ x pad, ∃ r, h.RemapVibrate x pad = .ok r) ∧
  (∀ x side index value, ∃ r, h.HandleIO x side index value = .ok r)

/-- The calls that NETPADpoll can make. -/
def PadCall.polls : PadCall → Bool
  | PadCall.RemapVibrate _ => true
  | PadCall.PADpoll _ => true
  | PadCall.HandleIO _ _ _ => true
  | _ => false

/-- The call is a NextFrame on the hook object. -/
def PadCall.isNextFrame : PadCall → Bool
  | PadCall.NextFrame => true
  | _ => false

/-- The call is an AcceptInput on the hook object. -/
def PadCall.isAcceptInput : PadCall → Bool
  | PadCall.AcceptInput _ => true
  | _ => false

/-- The condition under which NETPADstartPoll(port) counts a frame, as the code
tests it: `NET_CurrentPad() == 0` once `g_pollPort = port - 1`, a hook installed,
and 0x42 as the latched command. -/
def startsFrame {σ : Type} (s : IOP σ) (port : Int) : Prop :=
  NET_CurrentPad { s with g_pollPort := port - 1 } = 0 ∧ s.g_IOPHook = true ∧
    s.g_currentCommand = 0x42

instance {σ : Type} (s : IOP σ) (port : Int) : Decidable (startsFrame s port) := by
  unfold startsFrame
  infer_instance

/-- A wrapper call as the emulator makes it: pad plugin ports are numbered 1 and 2
and multitap slots 1 to 4, and a poll byte is a u8. -/
def Op.wf : Op → Prop
  | Op.setSlot port slot => (port = 1 ∨ port = 2) ∧ 1 ≤ slot ∧ slot ≤ 4
  | Op.startPoll port => port = 1 ∨ port = 2
  | Op.poll value => value < 256

instance (op : Op) : Decidable op.wf := by
  cases op <;> (unfold Op.wf; infer_instance)

/-- The wrapper call is a frame boundary in the state `s` it is made in: a
NETPADstartPoll on port 0 (the pad plugin port 1) with slot 0 selected on that
port, made while the latched command is 0x42. -/
def isBoundary {σ : Type} (s : IOP σ) : Op → Bool
  | Op.startPoll port =>
    decide (port - 1 = 0 ∧ s.g_pollSlot 0 = 0 ∧ s.g_currentCommand = 0x42)
  | _ => false

/-- The number of frame boundaries among the calls `ops` made from the state `s`,
as far as the run gets. -/
def boundaries {σ : Type} (h : IOPHook σ) (pe : PadEnv) : IOP σ → List Op → Nat
  | _, [] => 0
  | s, op :: ops =>
    (if isBoundary s op then 1 else 0) +
      (match step h pe s op with
       | .ok s1 => boundaries h pe s1 ops
       | .error _ => 0)

/-- The wrapper call begins a 0x42 command on pad 0 in the state `s` it is made
in: a NETPADpoll of the byte 0x42 at poll index 0 while pad 0 is the current pad. -/
def isPad0Command {σ : Type} (s : IOP σ) : Op → Bool
  | Op.poll value => decide (s.g_pollIndex = 0 ∧ value = 0x42 ∧ NET_CurrentPad s = 0)
  | _ => false

/-- The number of 0x42 commands begun on pad 0 among the calls `ops` made from the
state `s`, as far as the run gets. -/
def pad0Commands {σ : Type} (h : IOPHook σ) (pe : PadEnv) : IOP σ → List Op → Nat
  | _, [] => 0
  | s, op :: ops =>
    (if isPad0Command s op then 1 else 0) +
      (match step h pe s op with
       | .ok s1 => pad0Commands h pe s1 ops
       | .error _ => 0)

/-- What holds of the variables of IOPHook.cpp from HookIOP on, as long as the
wrapper calls are well formed: a hook is installed, the selected slots, the frame
counter and the poll index are not negative, and the send flag is 0, or 1 with the
poll index past 0. -/
def Hooked {σ : Type} (s : IOP σ) : Prop :=
  s.g_IOPHook = true ∧ 0 ≤ s.g_pollSlot 0 ∧ 0 ≤ s.g_pollSlot 1 ∧ 0 ≤ s.g_hookFrameNum ∧
  0 ≤ s.g_pollIndex ∧ (s.g_sendPad = 0 ∨ (s.g_sendPad = 1 ∧ 1 ≤ s.g_pollIndex))

/-- The method `NetplayPlugin::Init()`.  Its two calls on Utilities (SaveSettings,
ResetSettingsToSafeDefaults) concern the settings of the emulator, which are no
part of the plugin object, the session or the dialog; they are left out of the log. -/
def Init (w : World) : World :=
  { w with self._is_initialized := true, self._is_stopped := false }

/-- A call of a method of NetplayPlugin other than Open. -/
inductive PluginOp
  | Init
  | EndSession
  | Stop
  | NextFrame
  | AcceptInput (side : Int)
  | RemapVibrate (pad : Int)
  | HandleIO (side index : Int) (value : Nat)
deriving DecidableEq, Repr

/-- The world after one method call. -/
def PluginOp.apply (fuel : Nat) (env : Env) (w : World) : PluginOp → Except Fault World
  | PluginOp.Init => .ok (Netplay.Init w)
  | PluginOp.EndSession => Netplay.EndSession fuel env w
  | PluginOp.Stop => Netplay.Stop fuel env w
  | PluginOp.NextFrame => .ok (Netplay.NextFrame w)
  | PluginOp.AcceptInput side => Netplay.AcceptInput fuel env w side
  | PluginOp.RemapVibrate pad => .ok (Netplay.RemapVibrate env w pad).2
  | PluginOp.HandleIO side index value =>
    ( Netplay.HandleIO fuel env w side index value).map Prod.snd

/-- The world after a sequence of method calls. -/
def PluginOp.applyAll (fuel : Nat) (env : Env) : World → List PluginOp → Except Fault World
  | w, [] => .ok w
  | w, op :: ops =>
    match PluginOp.apply fuel env w op with
    | .ok w1 => PluginOp.applyAll fuel env w1 ops
    | .error e => .error e

/-- The calls of the drain loop of EndSession while `send` reports something
outstanding k times in a row: k times a send followed by the sleep of 17 ms. -/
def drainCalls : Nat → List Call
  | 0 => []
  | k + 1 => Call.send :: Call.sleep 17 :: drainCalls k

/-- The call is a `session::send`. -/
def Call.isSend : Call → Bool
  | Call.send => true
  | _ => false

/-- The call is a `session::send_end_session_request`. -/
def Call.isEndSessionRequest : Call → Bool
  | Call.send_end_session_request => true
  | _ => false

/-- The call is a `session::next_frame`. -/
def Call.isNextFrameCall : Call → Bool
  | Call.next_frame => true
  | _ => false

/-- The calls that the plugin still makes when it has no session and no connect
thread: it asks the dialog whether it is shown, closes it, and resets the core
thread. -/
def Call.idle : Call → Bool
  | Call.IsShown => true
  | Call.Close => true
  | Call.CoreThread_Reset => true
  | _ => false

/-- The calls that the thread block of EndSession makes in the world `w`. -/
def joinCalls (w : World) : List Call :=
  if w.self._connect_thread then [Call.notify_all, Call.thread_join] else []

/-- The calls that the dialog block of EndSession makes at the log `l`. -/
def dialogCalls (env : Env) (l : List Call) : List Call :=
  if env.IsShown l then [Call.IsShown, Call.Close] else [Call.IsShown]

/-- An example environment in which `session::set` throws. -/
def Examples.setFails : Env :=
  { Examples.env 0 with set := fun _ _ => false }

/-- An example environment in which `send` always reports something outstanding
and the delay is 2. -/
def Examples.busy : Env :=
  { Examples.env 0 with send := fun _ => true, delay := fun _ => 2 }

/-- A plugin with a running session that records a replay. -/
def Examples.recording : World :=
  { Examples.live with self._replay := true }

/-- An example sequence of later method calls. -/
def Examples.later : List PluginOp :=
  [PluginOp.AcceptInput 0, PluginOp.NextFrame, PluginOp.Init, PluginOp.HandleIO 0 0 0x55,
   PluginOp.AcceptInput 0, PluginOp.NextFrame, PluginOp.EndSession]

/-- The `session::get` call of the turn of the input wait of HandleIO that starts
with the log `l`: the side is the one the wait was given, the timeout what is left
until the deadline `timeout`. -/
def HandleIO.getCall (env : Env) (side timeout : Int) (l : List Call) : Call :=
  Call.get side ( HandleIO.untilTimeout timeout (env.time_ms l))

/-- What `session::get` answers in the turn of the input wait that starts with the
log `l`. -/
def HandleIO.getAnswer (env : Env) (side timeout : Int) (l : List Call) : GetResult :=
  env.get (l ++ [Call.time_ms]) side ( HandleIO.untilTimeout timeout (env.time_ms l))

/-- The calls of a turn of the input wait after which the wait goes on. -/
def HandleIO.retryCalls (env : Env) (side timeout : Int) (l : List Call) : List Call :=
  [Call.time_ms, HandleIO.getCall env side timeout l, Call.send, Call.end_session_request,
    Call.time_ms]

/-- The turn of the input wait that starts with the log `l` goes on to another turn:
`get` times out, nobody asked to end the session, and the deadline has not come. -/
def HandleIO.goesOn (env : Env) (side timeout : Int) (l : List Call) : Prop :=
  HandleIO.getAnswer env side timeout l = GetResult.timeout ∧
  env.end_session_request (l ++ [Call.time_ms, HandleIO.getCall env side timeout l, Call.send])
    = false ∧
  ¬ timeout ≤ env.time_ms (l ++ [Call.time_ms, HandleIO.getCall env side timeout l, Call.send,
    Call.end_session_request])

/-- The log after `k` turns of the input wait that went on, from the log `l`. -/
def HandleIO.waitLog (env : Env) (side timeout : Int) : Nat → List Call → List Call
  | 0, l => l
  | k + 1, l => HandleIO.waitLog env side timeout k (l ++ HandleIO.retryCalls env side timeout l)

/-- The deadline of the input wait of HandleIO, `shoryu::time_ms() + 10000`, when
the first part of HandleIO left the log `l`. -/
def HandleIO.deadline (env : Env) (l : List Call) : Int :=
  env.time_ms (l ++ [Call.num_players]) + 10000

/-- The log with which the input wait of HandleIO starts, when the first part of
HandleIO left the log `l`. -/
def HandleIO.waitStart (l : List Call) : List Call :=
  l ++ [Call.num_players, Call.time_ms]

/-- An example environment in which the first `get` of the session times out and
every later one delivers. -/
def Examples.slow : Env :=
  { Examples.env 1 with
    get := fun l s _ =>
      if l.countP Call.isGet = 0 then GetResult.timeout else GetResult.ok (Examples.record s) }

/-! ## Theorems -/

theorem LogExt.refl {α : Type} (P : α → Bool) (l : List α) : LogExt P l l :=
  ⟨[], by simp, by simp⟩

theorem LogExt.snoc {α : Type} {P : α → Bool} {l1 l2 : List α} (c : α) (hc : P c = true)
    (h : LogExt P l1 l2) : LogExt P l1 (l2 ++ [c]) := by
  obtain ⟨added, rfl, hP⟩ := h
  refine ⟨added ++ [c], by simp, ?_⟩
  intro x hx
  rcases List.mem_append.mp hx with hx | hx
  · exact hP x hx
  · simp only [List.mem_singleton] at hx
    subst hx
    exact hc

theorem LogExt.trans {α : Type} {P : α → Bool} {l1 l2 l3 : List α}
    (h12 : LogExt P l1 l2) (h23 : LogExt P l2 l3) : LogExt P l1 l3 := by
  obtain ⟨a, rfl, ha⟩ := h12
  obtain ⟨b, rfl, hb⟩ := h23
  refine ⟨a ++ b, by simp, ?_⟩
  intro x hx
  rcases List.mem_append.mp hx with hx | hx
  · exact ha x hx
  · exact hb x hx

theorem LogExt.mono {α : Type} {P Q : α → Bool} {l1 l2 : List α}
    (hPQ : ∀ c, P c = true → Q c = true) (h : LogExt P l1 l2) : LogExt Q l1 l2 := by
  obtain ⟨a, rfl, ha⟩ := h
  exact ⟨a, rfl, fun c hc => hPQ c (ha c hc)⟩

/-- Calls of a kind that the continuation excludes are as many as before. -/
theorem LogExt.countP_eq {α : Type} {P : α → Bool} {l1 l2 : List α} (Q : α → Bool)
    (hQ : ∀ c, P c = true → Q c = false) (h : LogExt P l1 l2) :
    l2.countP Q = l1.countP Q := by
  obtain ⟨a, rfl, ha⟩ := h
  have : a.countP Q = 0 := by
    rw [List.countP_eq_zero]
    intro c hc
    simp [hQ c (ha c hc)]
  simp [List.countP_append, this]

/-- The drain loop only sends and sleeps. -/
theorem EndSession.drain_log (env : Env) (n : Nat) (w w' : World) (try_count : Int)
    (h : EndSession.drain env n w try_count = .ok w') :
    LogExt Call.teardown w.log w'.log ∧ w'.self = w.self := by
  induction n generalizing w try_count with
  | zero => simp [EndSession.drain] at h
  | succ n ih =>
    simp only [EndSession.drain] at h
    split at h
    · split at h
      · simp only [Except.ok.injEq] at h
        subst h
        exact ⟨LogExt.snoc _ rfl (LogExt.snoc _ rfl (LogExt.refl _ _)), rfl⟩
      · obtain ⟨h1, h2⟩ := ih _ _ h
        refine ⟨LogExt.trans ?_ h1, h2⟩
        exact LogExt.snoc _ rfl (LogExt.snoc _ rfl (LogExt.refl _ _))
    · simp only [Except.ok.injEq] at h
      subst h
      exact ⟨LogExt.snoc _ rfl (LogExt.refl _ _), rfl⟩

/-- The dialog block only asks IsShown and may Close; it touches no member but
`_dialog`. -/
theorem EndSession.closeDialog_spec (env : Env) (w : World) :
    LogExt Call.teardown w.log (EndSession.closeDialog env w).log ∧
    (EndSession.closeDialog env w).self = { w.self with
      _dialog := if env.IsShown w.log then false else w.self._dialog } := by
  unfold EndSession.closeDialog
  split
  · exact ⟨LogExt.snoc _ rfl (LogExt.snoc _ rfl (LogExt.refl _ _)), rfl⟩
  · exact ⟨LogExt.snoc _ rfl (LogExt.refl _ _), rfl⟩

/-- The session block only makes teardown calls and touches no member. -/
theorem EndSession.closeSession_spec (fuel : Nat) (env : Env) (w w' : World)
    (h : EndSession.closeSession fuel env w = .ok w') :
    LogExt Call.teardown w.log w'.log ∧ w'.self = w.self := by
  unfold EndSession.closeSession at h
  split at h
  · split at h
    · simp only [bind, Except.bind, pure, Except.pure] at h
      split at h
      · simp at h
      · rename_i v hv
        simp only [Except.ok.injEq] at h
        subst h
        obtain ⟨h1, h2⟩ := EndSession.drain_log _ _ _ _ _ hv
        refine ⟨LogExt.snoc _ rfl (LogExt.snoc _ rfl (LogExt.trans ?_ h1)), h2⟩
        exact LogExt.snoc _ rfl (LogExt.snoc _ rfl (LogExt.snoc _ rfl (LogExt.refl _ _)))
    · simp only [pure, Except.pure, Except.ok.injEq] at h
      subst h
      exact ⟨LogExt.snoc _ rfl (LogExt.snoc _ rfl (LogExt.snoc _ rfl (LogExt.refl _ _))), rfl⟩
  · simp only [pure, Except.pure, Except.ok.injEq] at h
    subst h
    exact ⟨LogExt.refl _ _, rfl⟩

/-- The thread block only notifies and joins; it leaves no connect thread. -/
theorem EndSession.joinThread_spec (env : Env) (w : World) :
    LogExt Call.teardown w.log (EndSession.joinThread env w).log ∧
    (EndSession.joinThread env w).self._connect_thread = false ∧
    (EndSession.joinThread env w).self._session = w.self._session ∧
    (EndSession.joinThread env w).self._is_stopped = w.self._is_stopped ∧
    (EndSession.joinThread env w).self._my_frame = w.self._my_frame ∧
    (EndSession.joinThread env w).self._replay = w.self._replay ∧
    (EndSession.joinThread env w).self._dialog = w.self._dialog ∧
    (EndSession.joinThread env w).self._is_initialized = w.self._is_initialized := by
  unfold EndSession.joinThread
  split
  · exact ⟨LogExt.snoc _ rfl (LogExt.snoc _ rfl (LogExt.refl _ _)), rfl, rfl, rfl, rfl, rfl, rfl, rfl⟩
  · rename_i hc
    exact ⟨LogExt.refl _ _, by simpa using hc, rfl, rfl, rfl, rfl, rfl, rfl⟩

/-- What EndSession does when it returns: it only makes teardown calls, it leaves
no session and no connect thread, and it keeps the other members named here. -/
theorem EndSession_spec (fuel : Nat) (env : Env) (w w' : World)
    (h : EndSession fuel env w = .ok w') :
    LogExt Call.teardown w.log w'.log ∧ w'.self._session = false ∧
    w'.self._connect_thread = false ∧ w'.self._is_stopped = w.self._is_stopped ∧
    w'.self._my_frame = w.self._my_frame ∧ w'.self._replay = w.self._replay ∧
    w'.self._is_initialized = w.self._is_initialized := by
  unfold EndSession at h
  simp only [bind, Except.bind, pure, Except.pure] at h
  split at h
  · simp at h
  · rename_i v hv
    simp only [Except.ok.injEq] at h
    subst h
    obtain ⟨a1, a2⟩ := EndSession.closeDialog_spec env w
    obtain ⟨b1, b2⟩ := EndSession.closeSession_spec _ _ _ _ hv
    obtain ⟨c1, c2, c3, c4, c5, c6, c7, c8⟩ := EndSession.joinThread_spec env v
    refine ⟨LogExt.trans a1 (LogExt.trans b1 c1), rfl, c2, ?_, ?_, ?_, ?_⟩
    · show (EndSession.joinThread env v).self._is_stopped = _
      rw [c4, b2, a2]
    · show (EndSession.joinThread env v).self._my_frame = _
      rw [c5, b2, a2]
    · show (EndSession.joinThread env v).self._replay = _
      rw [c6, b2, a2]
    · show (EndSession.joinThread env v).self._is_initialized = _
      rw [c8, b2, a2]

/-- The drain loop returns within `try_count + 1` iterations when `try_count` is
not negative. -/
theorem EndSession.drain_returns (env : Env) (k : Nat) :
    ∀ (n : Nat) (w : World), k < n → ∃ w', EndSession.drain env n w (k : Int) = .ok w' := by
  induction k with
  | zero =>
    intro n w hn
    obtain ⟨m, rfl⟩ : ∃ m, n = m + 1 := ⟨n - 1, by omega⟩
    simp only [EndSession.drain]
    split
    · simp
    · exact ⟨_, rfl⟩
  | succ k ih =>
    intro n w hn
    obtain ⟨m, rfl⟩ : ∃ m, n = m + 1 := ⟨n - 1, by omega⟩
    simp only [EndSession.drain]
    split
    · have hk : ¬ ((k + 1 : Nat) : Int) = 0 := by omega
      simp only [hk, if_false]
      have e : ((k + 1 : Nat) : Int) - 1 = (k : Int) := by omega
      rw [e]
      exact ih m _ (by omega)
    · exact ⟨_, rfl⟩

/-- EndSession returns when there is no session to drain, or when the delay the
session reports is never negative and the iteration bound exceeds four times it. -/
theorem EndSession_returns (fuel : Nat) (env : Env) (w : World)
    (h : w.self._session = false ∨ ∀ l, 0 ≤ env.delay l ∧ 4 * env.delay l < fuel) :
    ∃ w', EndSession fuel env w = .ok w' := by
  have hs : (EndSession.closeDialog env w).self._session = w.self._session := by
    rw [(EndSession.closeDialog_spec env w).2]
  have hc : ∃ v, EndSession.closeSession fuel env (EndSession.closeDialog env w) = .ok v := by
    unfold EndSession.closeSession
    split
    · rename_i hss
      rw [hs] at hss
      rcases h with h | h
      · rw [h] at hss
        exact absurd hss (by simp)
      · split
        · simp only [bind, Except.bind, pure, Except.pure]
          obtain ⟨h0, h4⟩ := h (((EndSession.closeDialog env w).call Call.state).call
            Call.send_end_session_request).log
          obtain ⟨k, hk⟩ := Int.eq_ofNat_of_zero_le
            (by omega : 0 ≤ env.delay (((EndSession.closeDialog env w).call Call.state).call
              Call.send_end_session_request).log * 4)
          rw [hk]
          obtain ⟨v, hv⟩ := EndSession.drain_returns env k fuel
            ((((EndSession.closeDialog env w).call Call.state).call
              Call.send_end_session_request).call Call.delay) (by omega)
          rw [hv]
          exact ⟨_, rfl⟩
        · exact ⟨_, rfl⟩
    · exact ⟨_, rfl⟩
  obtain ⟨v, hv⟩ := hc
  unfold EndSession
  simp only [bind, Except.bind, pure, Except.pure, hv]
  exact ⟨_, rfl⟩

/-- Stop returns under the condition of `EndSession_returns`. -/
theorem Stop_returns (fuel : Nat) (env : Env) (w : World)
    (h : w.self._session = false ∨ ∀ l, 0 ≤ env.delay l ∧ 4 * env.delay l < fuel) :
    ∃ w', Stop fuel env w = .ok w' := by
  obtain ⟨v, hv⟩ := EndSession_returns fuel env { w with self._is_stopped := true } h
  unfold Stop
  simp only [bind, Except.bind, pure, Except.pure, hv]
  exact ⟨_, rfl⟩

/-- What Stop does when it returns: it only makes teardown calls and leaves the
plugin stopped, with no session and no connect thread. -/
theorem Stop_spec (fuel : Nat) (env : Env) (w w' : World) (h : Stop fuel env w = .ok w') :
    LogExt Call.teardown w.log w'.log ∧ w'.self._session = false ∧
    w'.self._connect_thread = false ∧ w'.self._is_stopped = true ∧
    w'.self._my_frame = w.self._my_frame ∧ w'.self._replay = w.self._replay ∧
    w'.self._is_initialized = w.self._is_initialized := by
  unfold Stop at h
  simp only [bind, Except.bind, pure, Except.pure] at h
  split at h
  · simp at h
  · rename_i v hv
    simp only [Except.ok.injEq] at h
    subst h
    obtain ⟨a1, a2, a3, a4, a5, a6, a7⟩ := EndSession_spec _ _ _ _ hv
    exact ⟨LogExt.snoc _ rfl a1, a2, a3, a4, a5, a6, a7⟩

/-- The rejecting block of Open makes no call that starts a session and leaves the
plugin stopped, with no session and no connect thread. -/
theorem Open.reject_spec (fuel : Nat) (env : Env) (w w' : World) (msg : String)
    (h : Open.reject fuel env w msg = .ok w') :
    LogExt (fun c => !c.opens) w.log w'.log ∧ w'.self._session = false ∧
    w'.self._connect_thread = false ∧ w'.self._is_stopped = true := by
  unfold Open.reject at h
  simp only [bind, Except.bind, pure, Except.pure] at h
  split at h
  · simp at h
  · rename_i v hv
    simp only [Except.ok.injEq] at h
    subst h
    obtain ⟨a1, a2, a3, a4, -⟩ := Stop_spec _ _ _ _ hv
    refine ⟨LogExt.snoc _ rfl (LogExt.mono ?_ a1), a2, a3, a4⟩
    intro c hc
    cases c <;> simp_all [Call.teardown, Call.opens]

/-- The rejecting block of Open returns under the condition of `EndSession_returns`. -/
theorem Open.reject_returns (fuel : Nat) (env : Env) (w : World) (msg : String)
    (h : w.self._session = false ∨ ∀ l, 0 ≤ env.delay l ∧ 4 * env.delay l < fuel) :
    ∃ w', Open.reject fuel env w msg = .ok w' := by
  obtain ⟨v, hv⟩ := Stop_returns fuel env w h
  unfold Open.reject
  simp only [bind, Except.bind, pure, Except.pure, hv]
  exact ⟨_, rfl⟩

/-- With settings that fail one of the three checks, Open is its rejecting block. -/
theorem Open_invalid (fuel : Nat) (env : Env) (settings : NetplaySettings) (w : World)
    (hbad : ¬ (1 ≤ settings.HostPort ∧ settings.HostPort ≤ 65535) ∨
      ¬ (1 ≤ settings.ListenPort ∧ settings.ListenPort ≤ 65535) ∨
      (settings.Mode = NetplayMode.ConnectMode ∧ settings.HostAddress.length = 0)) :
    ∃ msg, Open fuel env settings w =
      Open.reject fuel env { w with self._dialog := true, self._is_stopped := false } msg := by
  unfold Open
  by_cases h1 : settings.HostPort ≤ 0 ∨ settings.HostPort > 65535
  · exact ⟨_, by simp only [h1, if_true]; rfl⟩
  · by_cases h2 : settings.ListenPort ≤ 0 ∨ settings.ListenPort > 65535
    · exact ⟨_, by simp only [h1, h2, if_true, if_false]; rfl⟩
    · have h3 : settings.Mode = NetplayMode.ConnectMode ∧ settings.HostAddress.length = 0 := by
        rcases hbad with h | h | h
        · exact absurd h (by omega)
        · exact absurd h (by omega)
        · exact h
      exact ⟨_, by simp only [h1, h2, h3, if_true, if_false, and_self]; rfl⟩

theorem Keeps.id (w : World) : Keeps w w := ⟨rfl, rfl, rfl⟩

theorem Keeps.comp {w1 w2 w3 : World} (h12 : Keeps w1 w2) (h23 : Keeps w2 w3) : Keeps w1 w3 :=
  ⟨h23.1.trans h12.1, h23.2.1.trans h12.2.1, h23.2.2.trans h12.2.2⟩

/-- Stop only makes calls that the first part of HandleIO can make, and keeps the
untouched members. -/
theorem Stop_starts (fuel : Nat) (env : Env) (w w' : World) (h : Stop fuel env w = .ok w') :
    LogExt Call.starts w.log w'.log ∧ Keeps w w' := by
  obtain ⟨a1, -, -, -, a5, a6, a7⟩ := Stop_spec _ _ _ _ h
  refine ⟨LogExt.mono ?_ a1, a5, a6, a7⟩
  intro c hc
  cases c <;> simp_all [Call.teardown, Call.starts]

theorem HandleIO.pollDelay_spec (env : Env) (w w' : World) (d d' : Int)
    (h : HandleIO.pollDelay env w d = .ok (d', w')) :
    LogExt Call.starts w.log w'.log ∧ w'.self = w.self := by
  unfold HandleIO.pollDelay at h
  split at h
  · split at h
    · simp at h
    · simp only [Except.ok.injEq, Prod.mk.injEq] at h
      obtain ⟨-, rfl⟩ := h
      exact ⟨LogExt.snoc _ rfl (LogExt.snoc _ rfl (LogExt.snoc _ rfl (LogExt.refl _ _))), rfl⟩
  · simp only [Except.ok.injEq, Prod.mk.injEq] at h
    obtain ⟨-, rfl⟩ := h
    exact ⟨LogExt.snoc _ rfl (LogExt.refl _ _), rfl⟩

theorem HandleIO.connectThread_spec (env : Env) (w : World) :
    ( HandleIO.connectThread env w).log = w.log ∧ Keeps w ( HandleIO.connectThread env w) := by
  unfold HandleIO.connectThread
  split
  · split
    · exact ⟨rfl, rfl, rfl, rfl⟩
    · exact ⟨rfl, rfl, rfl, rfl⟩
  · exact ⟨rfl, rfl, rfl, rfl⟩

/-- The start wait only makes calls of the first part of HandleIO and keeps the
untouched members. -/
theorem HandleIO.wait_spec (fuel : Nat) (env : Env) (n : Nat) :
    ∀ (w w' : World) (delay : Int), HandleIO.wait fuel env n w delay = .ok w' →
      LogExt Call.starts w.log w'.log ∧ Keeps w w' := by
  induction n with
  | zero =>
    intro w w' delay h
    simp only [ HandleIO.wait] at h
    split at h
    · simp at h
    · simp only [Except.ok.injEq] at h
      subst h
      exact ⟨LogExt.refl _ _, Keeps.id _⟩
  | succ n ih =>
    intro w w' delay h
    simp only [ HandleIO.wait] at h
    split at h
    · simp only [Except.ok.injEq] at h
      subst h
      exact ⟨LogExt.refl _ _, Keeps.id _⟩
    · split at h
      · exact Stop_starts _ _ _ _ h
      · split at h
        · obtain ⟨a1, a2⟩ := Stop_starts _ _ _ _ h
          refine ⟨LogExt.trans ?_ a1, a2⟩
          exact LogExt.snoc _ rfl (LogExt.refl _ _)
        · split at h
          · simp at h
          · rename_i d2 w2 hp
            obtain ⟨b1, b2⟩ := HandleIO.pollDelay_spec _ _ _ _ _ hp
            obtain ⟨c1, c2⟩ := HandleIO.connectThread_spec env (w2.call (Call.sleep 150))
            obtain ⟨e1, e2⟩ := ih _ _ _ h
            rw [c1] at e1
            refine ⟨LogExt.trans (LogExt.trans ?_ b1) (LogExt.trans ?_ e1), ?_⟩
            · exact LogExt.snoc _ rfl (LogExt.refl _ _)
            · exact LogExt.snoc _ rfl (LogExt.refl _ _)
            · have k1 : Keeps w (w2.call (Call.sleep 150)) := by
                unfold Keeps
                show w2.self._my_frame = _ ∧ w2.self._replay = _ ∧ w2.self._is_initialized = _
                rw [b2]
                exact ⟨rfl, rfl, rfl⟩
              exact Keeps.comp (Keeps.comp k1 c2) e2

theorem HandleIO.cancelled_spec (fuel : Nat) (env : Env) (w w' : World)
    (h : HandleIO.cancelled fuel env w = .ok w') :
    LogExt Call.starts w.log w'.log ∧ Keeps w w' := by
  unfold HandleIO.cancelled at h
  split at h
  · exact Stop_starts _ _ _ _ h
  · simp only [Except.ok.injEq] at h
    subst h
    exact ⟨LogExt.refl _ _, Keeps.id _⟩

theorem HandleIO.checkEnd_spec (fuel : Nat) (env : Env) (w w' : World)
    (h : HandleIO.checkEnd fuel env w = .ok w') :
    LogExt Call.starts w.log w'.log ∧ Keeps w w' := by
  unfold HandleIO.checkEnd at h
  split at h
  · split at h
    · simp only [bind, Except.bind, pure, Except.pure] at h
      split at h
      · simp at h
      · rename_i v hv
        simp only [Except.ok.injEq] at h
        subst h
        obtain ⟨a1, a2⟩ := Stop_starts _ _ _ _ hv
        refine ⟨LogExt.snoc _ rfl (LogExt.trans ?_ a1), a2⟩
        exact LogExt.snoc _ rfl (LogExt.snoc _ rfl (LogExt.refl _ _))
    · simp only [Except.ok.injEq] at h
      subst h
      exact ⟨LogExt.snoc _ rfl (LogExt.refl _ _), Keeps.id _⟩
  · simp only [Except.ok.injEq] at h
    subst h
    exact ⟨LogExt.refl _ _, Keeps.id _⟩

/-- The first part of HandleIO makes no `session::get`, `session::set` or replay
call: it only makes the calls listed in `Call.starts`, and it keeps the pending
local frame. -/
theorem HandleIO.start_spec (fuel : Nat) (env : Env) (w w' : World)
    (h : HandleIO.start fuel env w = .ok w') :
    LogExt Call.starts w.log w'.log ∧ Keeps w w' := by
  unfold HandleIO.start at h
  simp only [bind, Except.bind, pure, Except.pure] at h
  split at h
  · simp at h
  · rename_i v1 h1
    split at h
    · simp at h
    · rename_i v2 h2
      obtain ⟨a1, a2⟩ := HandleIO.wait_spec _ _ _ _ _ _ h1
      obtain ⟨b1, b2⟩ := HandleIO.cancelled_spec _ _ _ _ h2
      obtain ⟨c1, c2⟩ := HandleIO.checkEnd_spec _ _ _ _ h
      refine ⟨LogExt.trans (LogExt.trans ?_ a1) (LogExt.trans b1 c1), ?_⟩
      · split
        · exact LogExt.snoc _ rfl (LogExt.snoc _ rfl (LogExt.refl _ _))
        · exact LogExt.snoc _ rfl (LogExt.refl _ _)
      · refine Keeps.comp (Keeps.comp ?_ a2) (Keeps.comp b2 c2)
        split
        · exact ⟨rfl, rfl, rfl⟩
        · exact ⟨rfl, rfl, rfl⟩

/-- On a session that has started (`_state` is SSReady or SSRunning) and where no
peer asks to end the session, the first part of HandleIO returns at once, whatever
the iteration bound: it asks the delay and the end-of-session request and touches
nothing. -/
theorem HandleIO.start_started (fuel : Nat) (env : Env) (w : World)
    (hss : w.self._session = true)
    (hst : w.self._state = SessionState.SSReady ∨ w.self._state = SessionState.SSRunning)
    (hreq : env.end_session_request (w.log ++ [Call.delay]) = false) :
    HandleIO.start fuel env w =
      .ok { w with log := w.log ++ [Call.delay, Call.end_session_request] } := by
  have h1 : ¬ w.self._state = SessionState.SSNone := by
    rcases hst with h | h <;> simp [h]
  have h2 : ¬ w.self._state = SessionState.SSCancelled := by
    rcases hst with h | h <;> simp [h]
  have hw : ∀ d, HandleIO.wait fuel env fuel (w.call Call.delay) d = .ok (w.call Call.delay) := by
    intro d
    cases fuel with
    | zero => simp [ HandleIO.wait, World.call, h1]
    | succ n => simp [ HandleIO.wait, World.call, h1]
  simp only [ HandleIO.start, World.call, h1, if_false, bind, Except.bind]
  simp only [World.call] at hw
  simp [hw, HandleIO.cancelled, HandleIO.checkEnd, h2, hss, hreq, World.call]

/-- Stop only makes calls that the input wait of HandleIO can make. -/
theorem Stop_receives (side : Int) (fuel : Nat) (env : Env) (w w' : World)
    (h : Stop fuel env w = .ok w') :
    LogExt (Call.receives side) w.log w'.log ∧ Keeps w w' := by
  obtain ⟨a1, -, -, -, a5, a6, a7⟩ := Stop_spec _ _ _ _ h
  refine ⟨LogExt.mono ?_ a1, a5, a6, a7⟩
  intro c hc
  cases c <;> simp_all [Call.teardown, Call.receives]

/-- The input wait of HandleIO asks only the queue of the side it was given, and
the record it returns is the one it was given or one that `get` delivered for that
side. -/
theorem HandleIO.recv_spec (fuel : Nat) (env : Env) (side timeout : Int) (n : Nat) :
    ∀ (w w' : World) (frame f : Message),
      HandleIO.recv fuel env side timeout n w frame = .ok (f, w') →
      LogExt (Call.receives side) w.log w'.log ∧ Keeps w w' ∧
      (f = frame ∨ ∃ l t, env.get l side t = GetResult.ok f) := by
  induction n with
  | zero =>
    intro w w' frame f h
    simp [ HandleIO.recv] at h
  | succ n ih =>
    intro w w' frame f h
    simp only [ HandleIO.recv] at h
    split at h
    · rename_i r hr
      simp only [Except.ok.injEq, Prod.mk.injEq] at h
      obtain ⟨rfl, rfl⟩ := h
      refine ⟨LogExt.snoc _ ?_ (LogExt.snoc _ rfl (LogExt.refl _ _)), Keeps.id _, Or.inr ⟨_, _, hr⟩⟩
      simp [Call.receives]
    · simp only [bind, Except.bind, pure, Except.pure] at h
      split at h
      · simp at h
      · rename_i v hv
        simp only [Except.ok.injEq, Prod.mk.injEq] at h
        obtain ⟨rfl, rfl⟩ := h
        obtain ⟨a1, a2⟩ := Stop_receives side _ _ _ _ hv
        refine ⟨LogExt.snoc _ rfl (LogExt.trans ?_ a1), a2, Or.inl rfl⟩
        refine LogExt.snoc _ ?_ (LogExt.snoc _ rfl (LogExt.refl _ _))
        simp [Call.receives]
    · have hg : LogExt (Call.receives side) w.log
          ((((w.call Call.time_ms).call
            (Call.get side ( HandleIO.untilTimeout timeout (env.time_ms w.log)))).call
              Call.send).call
            Call.end_session_request).log := by
        refine LogExt.snoc _ rfl (LogExt.snoc _ rfl (LogExt.snoc _ ?_
          (LogExt.snoc _ rfl (LogExt.refl _ _))))
        simp [Call.receives]
      split at h
      · simp only [Except.ok.injEq, Prod.mk.injEq] at h
        obtain ⟨rfl, rfl⟩ := h
        exact ⟨hg, Keeps.id _, Or.inl rfl⟩
      · split at h
        · simp only [bind, Except.bind, pure, Except.pure] at h
          split at h
          · simp at h
          · rename_i v hv
            simp only [Except.ok.injEq, Prod.mk.injEq] at h
            obtain ⟨rfl, rfl⟩ := h
            obtain ⟨a1, a2⟩ := Stop_receives side _ _ _ _ hv
            refine ⟨LogExt.snoc _ rfl (LogExt.trans ?_ a1), a2, Or.inl rfl⟩
            exact LogExt.snoc _ rfl (LogExt.snoc _ rfl hg)
        · obtain ⟨e1, e2, e3⟩ := ih _ _ _ _ h
          refine ⟨LogExt.trans ?_ e1, e2, e3⟩
          exact LogExt.snoc _ rfl hg

/-- None of the calls of the first part of HandleIO is a `session::get`. -/
theorem starts_not_get : ∀ c : Call, c.starts = true → c.isGet = false := by
  intro c hc
  cases c <;> simp_all [Call.starts, Call.teardown, Call.isGet]

/-- On a plugin that is not stopped and has a session, AcceptInput first publishes
the pending local frame with `set`, and makes no other `set` call. -/
theorem AcceptInput_publishes (fuel : Nat) (env : Env) (w w' : World) (side : Int)
    (hs : w.self._is_stopped = false) (hss : w.self._session = true)
    (h : AcceptInput fuel env w side = .ok w') :
    LogExt (fun c => !c.isSet) (w.log ++ [Call.set w.self._my_frame]) w'.log := by
  have hrec : ∀ v v' : World, AcceptInput.record env v side = .ok v' →
      LogExt (fun c => !c.isSet) v.log v'.log := by
    intro v v' hv
    unfold AcceptInput.record at hv
    repeat' split at hv
    all_goals first
      | (simp at hv; done)
      | (simp only [Except.ok.injEq] at hv
         subst hv
         first
           | exact LogExt.refl _ _
           | exact LogExt.snoc _ rfl (LogExt.snoc _ rfl (LogExt.refl _ _)))
  unfold AcceptInput at h
  simp only [hs, hss, Bool.false_eq_true, not_true_eq_false, or_self, if_false, bind,
    Except.bind] at h
  split at h
  · simp at h
  · rename_i v hv
    refine LogExt.trans ?_ (hrec _ _ h)
    unfold AcceptInput.publish at hv
    split at hv
    · simp only [Except.ok.injEq] at hv
      subst hv
      exact LogExt.refl _ _
    · simp only [bind, Except.bind, pure, Except.pure] at hv
      split at hv
      · simp at hv
      · rename_i u hu
        simp only [Except.ok.injEq] at hv
        subst hv
        obtain ⟨a1, -⟩ := Stop_spec _ _ _ _ hu
        refine LogExt.snoc _ rfl (LogExt.mono ?_ a1)
        intro c hc
        cases c <;> simp_all [Call.teardown, Call.isSet]

/-- On two arrays of the same size, memcmp over that size is 0 exactly when the
arrays are byte-equal. -/
theorem memcmp_eq_zero_iff : ∀ (a b : List Nat), a.length = b.length →
    (memcmp a b a.length = 0 ↔ a = b) := by
  intro a
  induction a with
  | nil =>
    intro b hl
    cases b with
    | nil => simp [memcmp]
    | cons y ys => simp at hl
  | cons x xs ih =>
    intro b hl
    cases b with
    | nil => simp at hl
    | cons y ys =>
      simp only [List.length_cons, Nat.add_right_cancel_iff] at hl
      simp only [List.length_cons, memcmp, List.cons.injEq]
      by_cases h1 : x < y
      · simp only [h1, if_true]
        constructor
        · intro h; simp at h
        · intro h; omega
      · by_cases h2 : y < x
        · simp only [h1, h2, if_true, if_false]
          constructor
          · intro h; simp at h
          · intro h; omega
        · simp only [h1, h2, if_false]
          rw [ih ys hl]
          constructor
          · intro h; exact ⟨by omega, h⟩
          · intro h; exact h.2

/-- What NETPADstartPoll leaves when it returns: the variables, and the calls it
made in their order: AcceptInput when the send flag was set, then NextFrame when
the call counts a frame that is not the first, then PADstartPoll. -/
theorem NETPADstartPoll_spec {σ : Type} (h : IOPHook σ) (pe : PadEnv) (s s' : IOP σ)
    (port : Int) (b : Nat) (hr : NETPADstartPoll h pe s port = .ok (b, s')) :
    s'.g_IOPHook = s.g_IOPHook ∧ s'.g_currentCommand = s.g_currentCommand ∧
    s'.g_pollPort = port - 1 ∧ s'.g_pollSlot = s.g_pollSlot ∧ s'.g_pollIndex = 0 ∧
    s'.g_vibrationRemap = s.g_vibrationRemap ∧
    s'.g_sendPad = (if s.g_IOPHook = true ∧ s.g_sendPad ≠ 0 then 0 else s.g_sendPad) ∧
    s'.g_hookFrameNum = s.g_hookFrameNum + (if startsFrame s port then 1 else 0) ∧
    s'.trace = s.trace ++
      (if s.g_IOPHook = true ∧ s.g_sendPad ≠ 0 then [PadCall.AcceptInput 0] else []) ++
      (if startsFrame s port ∧ 0 < s.g_hookFrameNum then [PadCall.NextFrame] else []) ++
      [PadCall.PADstartPoll port] := by
  unfold NETPADstartPoll at hr
  simp only [bind, Except.bind, pure, Except.pure] at hr
  unfold startsFrame NET_CurrentPad
  unfold NET_CurrentPad at hr
  repeat' split at hr
  all_goals first
    | (simp at hr; done)
    | (simp only [Except.ok.injEq, Prod.mk.injEq] at hr
       obtain ⟨-, rfl⟩ := hr
       by_cases hk : s.g_IOPHook = true <;> by_cases hp : s.g_sendPad = 0 <;> simp_all)

/-- The vibration block only calls RemapVibrate, and writes the byte of the
emulator into the vibration table exactly when it runs. -/
theorem NETPADpoll.vibrate_spec {σ : Type} (h : IOPHook σ) (s : IOP σ) (pad : Int)
    (value v1 : Nat) (s1 : IOP σ) (hv : NETPADpoll.vibrate h s pad value = .ok (v1, s1)) :
    LogExt PadCall.polls s.trace s1.trace ∧
    s1.g_vibrationRemap =
      (if s.g_IOPHook = true ∧ s.g_currentCommand = 0x42 ∧ s.g_pollIndex ≥ 2 ∧ s.g_pollIndex ≤ 3
       then store2 s.g_vibrationRemap pad (s.g_pollIndex - 2) value
       else s.g_vibrationRemap) := by
  unfold NETPADpoll.vibrate at hv
  split at hv
  · rename_i hc
    cases hr : h.RemapVibrate s.hook pad with
    | error e => simp [hr, bind, Except.bind] at hv
    | ok r =>
      obtain ⟨remap, hk⟩ := r
      simp only [hr, bind, Except.bind, pure, Except.pure] at hv
      split at hv
      · simp only [Except.ok.injEq, Prod.mk.injEq] at hv
        obtain ⟨-, rfl⟩ := hv
        exact ⟨LogExt.snoc _ rfl (LogExt.refl _ _), by simp only [hc, and_self, if_true]⟩
      · split at hv <;>
        · simp only [Except.ok.injEq, Prod.mk.injEq] at hv
          obtain ⟨-, rfl⟩ := hv
          exact ⟨LogExt.snoc _ rfl (LogExt.refl _ _), by simp only [hc, and_self, if_true]⟩
  · rename_i hc
    simp only [pure, Except.pure, Except.ok.injEq, Prod.mk.injEq] at hv
    obtain ⟨-, rfl⟩ := hv
    exact ⟨LogExt.refl _ _, by simp only [hc, if_false]⟩

/-- The block of NETPADpoll after PADpoll only calls HandleIO; of the variables
it touches the send flag alone, which it sets on index 0 of a 0x42 command on
pad 0. -/
theorem NETPADpoll.sync_spec {σ : Type} (h : IOPHook σ) (s : IOP σ) (pad : Int)
    (value v1 : Nat) (s1 : IOP σ) (hv : NETPADpoll.sync h s pad value = .ok (v1, s1)) :
    LogExt PadCall.polls s.trace s1.trace ∧
    s1.g_IOPHook = s.g_IOPHook ∧ s1.g_currentCommand = s.g_currentCommand ∧
    s1.g_pollPort = s.g_pollPort ∧ s1.g_pollSlot = s.g_pollSlot ∧
    s1.g_pollIndex = s.g_pollIndex ∧ s1.g_hookFrameNum = s.g_hookFrameNum ∧
    s1.g_vibrationRemap = s.g_vibrationRemap ∧
    s1.g_sendPad =
      (if s.g_IOPHook = true ∧ s.g_currentCommand = 0x42 ∧ pad = 0 ∧ s.g_pollIndex = 0 then 1
       else s.g_sendPad) := by
  unfold NETPADpoll.sync at hv
  simp only [bind, Except.bind, pure, Except.pure] at hv
  repeat' split at hv
  all_goals first
    | (simp at hv; done)
    | (simp only [Except.ok.injEq, Prod.mk.injEq] at hv
       obtain ⟨-, rfl⟩ := hv
       refine ⟨?_, ?_⟩
       · first
           | exact LogExt.refl _ _
           | exact LogExt.snoc _ rfl (LogExt.refl _ _)
       · first
           | (simp_all; done)
           | (simp_all; rw [if_neg (by tauto)]))

/-- The vibration block changes nothing but the hook object, the call trace and
the vibration table. -/
theorem NETPADpoll.vibrate_fields {σ : Type} (h : IOPHook σ) (s : IOP σ) (pad : Int)
    (value v1 : Nat) (s1 : IOP σ) (hv : NETPADpoll.vibrate h s pad value = .ok (v1, s1)) :
    s1.g_IOPHook = s.g_IOPHook ∧ s1.g_currentCommand = s.g_currentCommand ∧
    s1.g_pollPort = s.g_pollPort ∧ s1.g_pollSlot = s.g_pollSlot ∧
    s1.g_pollIndex = s.g_pollIndex ∧ s1.g_hookFrameNum = s.g_hookFrameNum ∧
    s1.g_sendPad = s.g_sendPad ∧ s1.g_active = s.g_active := by
  unfold NETPADpoll.vibrate at hv
  split at hv
  · cases hr : h.RemapVibrate s.hook pad with
    | error e => simp [hr, bind, Except.bind] at hv
    | ok r =>
      obtain ⟨remap, hk⟩ := r
      simp only [hr, bind, Except.bind, pure, Except.pure] at hv
      split at hv
      · simp only [Except.ok.injEq, Prod.mk.injEq] at hv
        obtain ⟨-, rfl⟩ := hv
        simp
      · split at hv <;>
        · simp only [Except.ok.injEq, Prod.mk.injEq] at hv
          obtain ⟨-, rfl⟩ := hv
          simp
  · simp only [pure, Except.pure, Except.ok.injEq, Prod.mk.injEq] at hv
    obtain ⟨-, rfl⟩ := hv
    simp

/-- C1: the bytes NETPADpoll returns during a 0x42 command.  With a hook installed
and 0x42 as the latched command (the byte of this very poll at poll index 0, the
command latched before otherwise), with i the poll index: for i below 2 NETPADpoll
returns the byte PADpoll returned, unchanged; for 2 <= i <= 1 + NETPLAY_SYNC_NUM_INPUTS
and i < 8 it returns what HandleIO(pad, i - 2, padByte) returns, where padByte is
what PADpoll returned for the byte the vibration block handed on (and it fails
exactly when HandleIO does); for any other i up to 7 it returns 0x7F; and for i from
8 on it returns 0xFF. -/
theorem NETPADpoll_response {σ : Type} (h : IOPHook σ) (pe : PadEnv) (s : IOP σ) (value : Nat)
    (hooked : s.g_IOPHook = true)
    (latched : (if s.g_pollIndex = 0 then (value : Int) else s.g_currentCommand) = 0x42) :
    (s.g_pollIndex < 2 →
      ∃ s', NETPADpoll h pe s value = .ok (pe.PADpoll s.trace value, s')) ∧
    (2 ≤ s.g_pollIndex → s.g_pollIndex ≤ 1 + NETPLAY_SYNC_NUM_INPUTS → s.g_pollIndex < 8 →
      ∀ v1 s1, NETPADpoll.vibrate h s (NET_CurrentPad s) value = .ok (v1, s1) →
        (NETPADpoll h pe s value).map Prod.fst =
          ( h.HandleIO s1.hook (NET_CurrentPad s) (s.g_pollIndex - 2)
              (pe.PADpoll s1.trace v1)).map Prod.fst) ∧
    (¬ s.g_pollIndex < 2 → ¬ (s.g_pollIndex ≤ 1 + NETPLAY_SYNC_NUM_INPUTS ∧ s.g_pollIndex < 8) →
      s.g_pollIndex ≤ 7 → ∃ s', NETPADpoll h pe s value = .ok (0x7f, s')) ∧
    (8 ≤ s.g_pollIndex → ∃ s', NETPADpoll h pe s value = .ok (0xff, s')) := by
  obtain ⟨hk, st, cmd, port, slot, i, fr, sp, vib, act, tr⟩ := s
  simp only at hooked latched ⊢
  subst hooked
  refine ⟨?_, ?_, ?_, ?_⟩
  · intro h2
    have h1 : ¬ (2 ≤ i) := by omega
    simp [NETPADpoll, NETPADpoll.vibrate, NETPADpoll.sync, latched, bind, Except.bind, pure, Except.pure, h1, h2]
  · intro h2 h7 h8 v1 s1 hv
    have h0 : i ≠ 0 := by omega
    simp only [h0, if_false] at latched
    subst latched
    have h1 : ¬ (i < 2) := by omega
    simp only [NETPADpoll, h0, if_false, hv, bind, Except.bind]
    obtain ⟨e1, e2, -, -, e5, -, -, -⟩ := NETPADpoll.vibrate_fields h _ _ _ _ _ hv
    simp only at e1 e2 e5
    have h7b : i ≤ 1 + NETPLAY_SYNC_NUM_INPUTS ∧ i < 8 := ⟨h7, h8⟩
    simp only [NETPADpoll.sync, e1, e2, e5, h1, h7b, bind, Except.bind, pure, Except.pure]
    cases h.HandleIO s1.hook _ (i - 2) (pe.PADpoll s1.trace v1) with
    | error e => simp [Except.map]
    | ok r => simp [Except.map]
  · intro h2 h7 h8
    exfalso
    simp only [NETPLAY_SYNC_NUM_INPUTS] at h7
    omega
  · intro h8
    have h0 : i ≠ 0 := by omega
    have h1 : ¬ (i < 2) := by omega
    have h3 : ¬ (i ≤ 3) := by omega
    have h7 : ¬ (i ≤ 1 + NETPLAY_SYNC_NUM_INPUTS ∧ i < 8) := by
      simp only [NETPLAY_SYNC_NUM_INPUTS]; omega
    have h9 : ¬ (i > 3 ∧ i < 8) := by omega
    simp only [h0, if_false] at latched
    simp [NETPADpoll, NETPADpoll.vibrate, NETPADpoll.sync, latched, bind, Except.bind, pure, Except.pure, h0, h1, h3, h7, h9]

/-- What NETPADpoll leaves when it returns: it latches the command on index 0,
advances the index, sets the send flag on index 0 of a 0x42 command on pad 0,
writes the vibration table on index 2 and 3 of a 0x42 command, and only calls
RemapVibrate, PADpoll and HandleIO. -/
theorem NETPADpoll_spec {σ : Type} (h : IOPHook σ) (pe : PadEnv) (s s' : IOP σ)
    (value b : Nat) (hr : NETPADpoll h pe s value = .ok (b, s')) :
    LogExt PadCall.polls s.trace s'.trace ∧
    s'.g_IOPHook = s.g_IOPHook ∧ s'.g_pollPort = s.g_pollPort ∧
    s'.g_pollSlot = s.g_pollSlot ∧ s'.g_hookFrameNum = s.g_hookFrameNum ∧
    s'.g_pollIndex = s.g_pollIndex + 1 ∧
    s'.g_currentCommand = (if s.g_pollIndex = 0 then (value : Int) else s.g_currentCommand) ∧
    s'.g_sendPad =
      (if s.g_IOPHook = true ∧
          (if s.g_pollIndex = 0 then (value : Int) else s.g_currentCommand) = 0x42 ∧
          NET_CurrentPad s = 0 ∧ s.g_pollIndex = 0 then 1
       else s.g_sendPad) ∧
    s'.g_vibrationRemap =
      (if s.g_IOPHook = true ∧
          (if s.g_pollIndex = 0 then (value : Int) else s.g_currentCommand) = 0x42 ∧
          s.g_pollIndex ≥ 2 ∧ s.g_pollIndex ≤ 3
       then store2 s.g_vibrationRemap (NET_CurrentPad s) (s.g_pollIndex - 2) value
       else s.g_vibrationRemap) := by
  unfold NETPADpoll at hr
  simp only [bind, Except.bind, pure, Except.pure] at hr
  split at hr
  · simp at hr
  · rename_i p1 hp1
    obtain ⟨v1, s1⟩ := p1
    split at hr
    · simp at hr
    · rename_i p2 hp2
      obtain ⟨v2, s2⟩ := p2
      simp only [Except.ok.injEq, Prod.mk.injEq] at hr
      obtain ⟨-, rfl⟩ := hr
      obtain ⟨a1, a2, a3, a4, a5, a6, a7, a8⟩ := NETPADpoll.vibrate_fields h _ _ _ _ _ hp1
      obtain ⟨b1, b2⟩ := NETPADpoll.vibrate_spec h _ _ _ _ _ hp1
      obtain ⟨c0, c1, c2, c3, c4, c5, c6, c7, c8⟩ := NETPADpoll.sync_spec h _ _ _ _ _ hp2
      simp only at a1 a2 a3 a4 a5 a6 a7 a8 b1 b2 c0 c1 c2 c3 c4 c5 c6 c7 c8 ⊢
      refine ⟨LogExt.trans (LogExt.snoc (PadCall.PADpoll v1) rfl b1) c0, ?_, ?_, ?_, ?_, ?_, ?_,
        ?_, ?_⟩
      · rw [c1, a1]
      · rw [c3, a3]
      · rw [c4, a4]
      · rw [c6, a6]
      · rw [c5, a5]
      · rw [c2, a2]
      · rw [c8, a1, a2, a5, a7]
      · rw [c7, b2]

/-- One well formed wrapper call from a hooked state: the state stays hooked, the
frame counter grows by one exactly at a frame boundary, NextFrame is called once
exactly at a frame boundary that is not the first, and the AcceptInput calls
together with the send flag grow by one exactly when a 0x42 command begins on
pad 0. -/
theorem step_spec {σ : Type} (h : IOPHook σ) (pe : PadEnv) (s s' : IOP σ) (op : Op)
    (hs : Hooked s) (hop : op.wf) (hr : step h pe s op = .ok s') :
    Hooked s' ∧
    s'.g_hookFrameNum = s.g_hookFrameNum + (if isBoundary s op then 1 else 0) ∧
    s'.trace.countP PadCall.isNextFrame = s.trace.countP PadCall.isNextFrame +
      (if isBoundary s op = true ∧ 0 < s.g_hookFrameNum then 1 else 0) ∧
    s'.trace.countP PadCall.isAcceptInput + (if s'.g_sendPad ≠ 0 then 1 else 0) =
      s.trace.countP PadCall.isAcceptInput + (if s.g_sendPad ≠ 0 then 1 else 0) +
        (if isPad0Command s op then 1 else 0) := by
  obtain ⟨k1, k2, k3, k4, k5, k6⟩ := hs
  cases op with
  | setSlot port slot =>
    simp only [step, NETPADsetSlot, Except.ok.injEq] at hr
    subst hr
    obtain ⟨hp, hl1, hl4⟩ := hop
    have e1 : 0 ≤ (slot : Int) - 1 := by omega
    refine ⟨⟨k1, ?_, ?_, k4, k5, k6⟩, ?_, ?_, ?_⟩
    · simp only [store1]; split <;> omega
    · simp only [store1]; split <;> omega
    · simp [isBoundary]
    · simp [isBoundary, List.countP_append, PadCall.isNextFrame]
    · simp [isPad0Command, List.countP_append, PadCall.isAcceptInput]
  | startPoll port =>
    simp only [step] at hr
    cases hn : NETPADstartPoll h pe s port with
    | error e => simp [hn, Except.map] at hr
    | ok p =>
      obtain ⟨b, s2⟩ := p
      simp only [hn, Except.map, Except.ok.injEq] at hr
      subst hr
      obtain ⟨a1, a2, a3, a4, a5, a6, a7, a8, a9⟩ := NETPADstartPoll_spec h pe s _ port b hn
      have hsf : startsFrame s port ↔ isBoundary s (Op.startPoll port) = true := by
        simp only [startsFrame, NET_CurrentPad, isBoundary, decide_eq_true_eq, k1, true_and]
        rcases hop with rfl | rfl
        · simp only [sub_self, if_true]
          constructor
          · intro ⟨h1, h2⟩
            refine ⟨trivial, ?_, h2⟩
            by_contra h3
            simp only [ne_eq, h3, not_false_eq_true, if_true] at h1
            omega
          · intro ⟨_, h1, h2⟩
            simp [h1, h2]
        · constructor
          · intro ⟨h1, h2⟩
            exfalso
            norm_num at h1
            split at h1 <;> omega
          · intro ⟨h1, _⟩
            norm_num at h1
      have hsp : s2.g_sendPad = 0 := by
        rw [a7]
        split
        · rfl
        · rename_i hc
          simp only [k1, true_and, ne_eq, not_not] at hc
          exact hc
      refine ⟨⟨a1.trans k1, by rw [a4]; exact k2, by rw [a4]; exact k3, ?_, by rw [a5],
        Or.inl hsp⟩, ?_, ?_, ?_⟩
      · rw [a8]; split <;> omega
      · rw [a8]; simp only [hsf]
      · rw [a9]
        simp only [hsf, List.countP_append]
        by_cases hb : isBoundary s (Op.startPoll port) = true ∧ 0 < s.g_hookFrameNum
        · by_cases hq : s.g_IOPHook = true ∧ s.g_sendPad ≠ 0 <;>
            simp [hb, hq, PadCall.isNextFrame]
        · by_cases hq : s.g_IOPHook = true ∧ s.g_sendPad ≠ 0 <;>
            simp [hb, hq, PadCall.isNextFrame]
      · rw [a9, hsp]
        simp only [hsf, List.countP_append, k1, true_and]
        by_cases hb : isBoundary s (Op.startPoll port) = true ∧ 0 < s.g_hookFrameNum
        · by_cases hq : s.g_sendPad ≠ 0 <;>
            simp [hb, hq, PadCall.isAcceptInput, isPad0Command]
        · by_cases hq : s.g_sendPad ≠ 0 <;>
            simp [hb, hq, PadCall.isAcceptInput, isPad0Command]
  | poll value =>
    simp only [step] at hr
    cases hn : NETPADpoll h pe s value with
    | error e => simp [hn, Except.map] at hr
    | ok p =>
      obtain ⟨b, s2⟩ := p
      simp only [hn, Except.map, Except.ok.injEq] at hr
      subst hr
      obtain ⟨a0, a1, a2, a3, a4, a5, a6, a7, a8⟩ := NETPADpoll_spec h pe s _ value b hn
      have n1 := LogExt.countP_eq PadCall.isNextFrame
        (fun c hc => by cases c <;> simp_all [PadCall.polls, PadCall.isNextFrame]) a0
      have n2 := LogExt.countP_eq PadCall.isAcceptInput
        (fun c hc => by cases c <;> simp_all [PadCall.polls, PadCall.isAcceptInput]) a0
      have hcmd : (s.g_IOPHook = true ∧
          (if s.g_pollIndex = 0 then (value : Int) else s.g_currentCommand) = 0x42 ∧
          NET_CurrentPad s = 0 ∧ s.g_pollIndex = 0) ↔ isPad0Command s (Op.poll value) = true := by
        simp only [isPad0Command, decide_eq_true_eq, k1, true_and]
        constructor
        · intro ⟨h1, h2, h3⟩
          simp only [h3, if_true] at h1
          exact ⟨h3, by omega, h2⟩
        · intro ⟨h1, h2, h3⟩
          simp only [h1, if_true]
          exact ⟨by omega, h3, trivial⟩
      rw [n1, n2, a4, a7]
      simp only [hcmd]
      by_cases hc : isPad0Command s (Op.poll value) = true
      · have hi0 : s.g_pollIndex = 0 := by
          simp only [isPad0Command, decide_eq_true_eq] at hc
          exact hc.1
        have hs0 : s.g_sendPad = 0 := by
          rcases k6 with h0 | ⟨-, h1⟩
          · exact h0
          · omega
        refine ⟨⟨a1.trans k1, by rw [a3]; exact k2, by rw [a3]; exact k3, by rw [a4]; exact k4,
          by rw [a5]; omega, ?_⟩, ?_, ?_, ?_⟩
        · right
          rw [a7]
          simp only [hcmd, hc, if_true, a5]
          exact ⟨trivial, by omega⟩
        · simp [isBoundary]
        · simp [isBoundary]
        · simp [hc, hs0]
      · refine ⟨⟨a1.trans k1, by rw [a3]; exact k2, by rw [a3]; exact k3, by rw [a4]; exact k4,
          by rw [a5]; omega, ?_⟩, ?_, ?_, ?_⟩
        · rw [a7, a5]
          simp only [hcmd, hc, Bool.false_eq_true, if_false]
          rcases k6 with h0 | ⟨h1, h2⟩
          · exact Or.inl h0
          · exact Or.inr ⟨h1, by omega⟩
        · simp [isBoundary]
        · simp [isBoundary]
        · simp [hc]

/-- A run of well formed wrapper calls from a hooked state, summed up call by
call. -/
theorem run_counts {σ : Type} (h : IOPHook σ) (pe : PadEnv) (ops : List Op) :
    ∀ (s s' : IOP σ), Hooked s → (∀ op ∈ ops, op.wf) → run h pe s ops = .ok s' →
      Hooked s' ∧
      s'.g_hookFrameNum = s.g_hookFrameNum + (boundaries h pe s ops : Nat) ∧
      s'.trace.countP PadCall.isNextFrame = s.trace.countP PadCall.isNextFrame +
        (if 0 < s.g_hookFrameNum then boundaries h pe s ops else boundaries h pe s ops - 1) ∧
      s'.trace.countP PadCall.isAcceptInput + (if s'.g_sendPad ≠ 0 then 1 else 0) =
        s.trace.countP PadCall.isAcceptInput + (if s.g_sendPad ≠ 0 then 1 else 0) +
          pad0Commands h pe s ops := by
  induction ops with
  | nil =>
    intro s s' hs _ hr
    simp only [run, Except.ok.injEq] at hr
    subst hr
    simp [boundaries, pad0Commands, hs]
  | cons op ops ih =>
    intro s s' hs hwf hr
    simp only [run] at hr
    cases h1 : step h pe s op with
    | error e => simp [h1] at hr
    | ok s1 =>
      simp only [h1] at hr
      obtain ⟨a1, a2, a3, a4⟩ := step_spec h pe s s1 op hs (hwf op (List.mem_cons_self _ _)) h1
      obtain ⟨b1, b2, b3, b4⟩ := ih s1 s' a1 (fun o ho => hwf o (List.mem_cons_of_mem _ ho)) hr
      have k4 := hs.2.2.2.1
      refine ⟨b1, ?_, ?_, ?_⟩
      · simp only [boundaries, h1]
        rw [b2, a2]
        split <;> push_cast <;> omega
      · simp only [boundaries, h1]
        rw [b3, a3, a2]
        by_cases hb : isBoundary s op = true
        · simp only [hb, if_true, true_and]
          by_cases hf : 0 < s.g_hookFrameNum
          · have : 0 < s.g_hookFrameNum + 1 := by omega
            simp only [hf, this, if_true]
            omega
          · have : 0 < s.g_hookFrameNum + 1 := by omega
            simp only [hf, this, if_true, if_false]
            omega
        · simp only [hb, Bool.false_eq_true, if_false, false_and, add_zero, zero_add]
      · simp only [pad0Commands, h1]
        omega

/-- NETPADstartPoll returns when the methods of the hook object do. -/
theorem NETPADstartPoll_returns {σ : Type} (h : IOPHook σ) (pe : PadEnv) (s : IOP σ)
    (port : Int) (htot : h.returns) : ∃ r, NETPADstartPoll h pe s port = .ok r := by
  obtain ⟨r1, h1⟩ := htot.2.1 s.hook 0
  obtain ⟨r2, h2⟩ := htot.1 r1
  obtain ⟨r3, h3⟩ := htot.1 s.hook
  simp only [NETPADstartPoll, bind, Except.bind, pure, Except.pure]
  split_ifs <;> (try simp only [h1, h2, h3]) <;> (try split_ifs) <;> exact ⟨_, rfl⟩

/-- NETPADpoll returns when the methods of the hook object do. -/
theorem NETPADpoll_returns {σ : Type} (h : IOPHook σ) (pe : PadEnv) (s : IOP σ)
    (value : Nat) (htot : h.returns) : ∃ r, NETPADpoll h pe s value = .ok r := by
  have hv : ∀ (t : IOP σ) (pad : Int) (v : Nat), ∃ r, NETPADpoll.vibrate h t pad v = .ok r := by
    intro t pad v
    obtain ⟨r1, h1⟩ := htot.2.2.1 t.hook pad
    simp only [NETPADpoll.vibrate, bind, Except.bind, pure, Except.pure, h1]
    split_ifs <;> simp
  have hy : ∀ (t : IOP σ) (pad : Int) (v : Nat), ∃ r, NETPADpoll.sync h t pad v = .ok r := by
    intro t pad v
    obtain ⟨r1, h1⟩ := htot.2.2.2 t.hook pad (t.g_pollIndex - 2) v
    simp only [NETPADpoll.sync, bind, Except.bind, pure, Except.pure, h1]
    split_ifs <;> simp
  simp only [NETPADpoll, bind, Except.bind, pure, Except.pure]
  obtain ⟨r1, h1⟩ := hv { s with
    g_currentCommand := if s.g_pollIndex = 0 then (value : Int) else s.g_currentCommand }
    (NET_CurrentPad s) value
  rw [h1]
  obtain ⟨r2, h2⟩ := hy { r1.2 with trace := r1.2.trace ++ [PadCall.PADpoll r1.1] }
    (NET_CurrentPad s) (pe.PADpoll r1.2.trace r1.1)
  simp only [h2]
  exact ⟨_, rfl⟩

/-- A run of wrapper calls reaches a state when the methods of the hook object
return: the wrappers themselves never fail. -/
theorem run_returns {σ : Type} (h : IOPHook σ) (pe : PadEnv) (htot : h.returns)
    (ops : List Op) : ∀ s : IOP σ, ∃ s', run h pe s ops = .ok s' := by
  induction ops with
  | nil => intro s; exact ⟨s, rfl⟩
  | cons op ops ih =>
    intro s
    have hstep : ∃ s1, step h pe s op = .ok s1 := by
      cases op with
      | setSlot port slot => exact ⟨_, rfl⟩
      | startPoll port =>
        obtain ⟨r, hr⟩ := NETPADstartPoll_returns h pe s port htot
        exact ⟨r.2, by simp [step, hr, Except.map]⟩
      | poll value =>
        obtain ⟨r, hr⟩ := NETPADpoll_returns h pe s value htot
        exact ⟨r.2, by simp [step, hr, Except.map]⟩
    obtain ⟨s1, h1⟩ := hstep
    obtain ⟨s2, h2⟩ := ih s1
    exact ⟨s2, by simp only [run, h1, h2]⟩

/-- C9: Open rejects an invalid configuration before binding.  When the host port
is outside 1..65535, or the listen port is outside 1..65535, or the mode is Connect
and the host address is empty, then every run of Open that returns has made no bind
call, created no session and no connect thread (neither in the call log nor in the
members), and has left `_is_stopped` true; and Open does return, whenever there was
no earlier session to drain or the delay that session reports is never negative and
the iteration bound exceeds four times it. -/
theorem Open_rejects_invalid_settings (fuel : Nat) (env : Env) (settings : NetplaySettings)
    (w : World)
    (hbad : ¬ (1 ≤ settings.HostPort ∧ settings.HostPort ≤ 65535) ∨
      ¬ (1 ≤ settings.ListenPort ∧ settings.ListenPort ≤ 65535) ∨
      (settings.Mode = NetplayMode.ConnectMode ∧ settings.HostAddress.length = 0)) :
    (∀ w', Open fuel env settings w = .ok w' →
      LogExt (fun c => !c.opens) w.log w'.log ∧ w'.self._session = false ∧
      w'.self._connect_thread = false ∧ w'.self._is_stopped = true) ∧
    ((w.self._session = false ∨ ∀ l, 0 ≤ env.delay l ∧ 4 * env.delay l < fuel) →
      ∃ w', Open fuel env settings w = .ok w') := by
  obtain ⟨msg, hm⟩ := Open_invalid fuel env settings w hbad
  rw [hm]
  exact ⟨fun w' h => Open.reject_spec fuel env
    { w with self._dialog := true, self._is_stopped := false } w' msg h,
    fun h => Open.reject_returns _ _ _ _ h⟩

/-- The witness of C9: on a fresh plugin, Connect mode with an empty host address is
rejected. -/
theorem Open_rejects_invalid_settings_witness :
    ∃ w', Open 8 (Examples.env 0) Examples.connectNoHost Examples.fresh = .ok w' ∧
      LogExt (fun c => !c.opens) Examples.fresh.log w'.log ∧ w'.self._session = false ∧
      w'.self._connect_thread = false ∧ w'.self._is_stopped = true :=
  have T := Open_rejects_invalid_settings 8 (Examples.env 0) Examples.connectNoHost
    Examples.fresh (Or.inr (Or.inr ⟨rfl, rfl⟩))
  (T.2 (Or.inl rfl)).elim fun w' hw' => ⟨w', hw', T.1 w' hw'⟩

/-- C10 (the code at the failing input): in Observe mode with an empty host
address and valid ports, on a fresh plugin whose dialog is shown, Open is not
rejected: it creates the session, binds port 0, spawns the connect thread and leaves
`_is_stopped` false. -/
theorem Open_observe_empty_address_binds :
    (Open 8 (Examples.env 0) Examples.observeNoHost Examples.fresh).map
        (fun w => (w.log, w.self._session, w.self._connect_thread, w.self._is_stopped)) =
      .ok ([Call.IsShown, Call.prepare_io_service, Call.session_new, Call.userlist_handler,
            Call.set_chatmessage_handler, Call.bind 0, Call.username "B",
            Call.SetSendChatMessageHandler, Call.thread_new NetplayMode.ObserveMode],
           true, true, false) := by
  rfl

/-- C7 (as amended): for sync states whose arrays have the same sizes,
CheckSyncStates returns true exactly when the biosVersion fields are byte-equal, the
discId fields are byte-equal over the whole array, and the skipMpeg toggles are
equal. -/
theorem CheckSyncStates_true_iff (g : List Nat → String) (s1 s2 : EmulatorSyncState)
    (hb : s1.biosVersion.length = s2.biosVersion.length)
    (hd : s1.discId.length = s2.discId.length) :
    (CheckSyncStates g s1 s2).1 = true ↔
      s1.biosVersion = s2.biosVersion ∧ s1.discId = s2.discId ∧ s1.skipMpeg = s2.skipMpeg := by
  have eb := memcmp_eq_zero_iff _ _ hb
  have ed := memcmp_eq_zero_iff _ _ hd
  unfold CheckSyncStates
  by_cases h1 : memcmp s1.biosVersion s2.biosVersion s1.biosVersion.length = 0
  · by_cases h2 : memcmp s1.discId s2.discId s1.discId.length = 0
    · by_cases h3 : s1.skipMpeg = s2.skipMpeg
      · simp only [ne_eq, h1, h2, h3, not_true_eq_false, if_false]
        simp [eb.mp h1, ed.mp h2]
      · simp only [ne_eq, h1, h2, h3, not_true_eq_false, not_false_eq_true, if_true, if_false]
        simp [h3]
    · have : ¬ s1.discId = s2.discId := fun h => h2 (ed.mpr h)
      simp only [ne_eq, h1, h2, not_true_eq_false, not_false_eq_true, if_true, if_false]
      simp [this]
  · have : ¬ s1.biosVersion = s2.biosVersion := fun h => h1 (eb.mpr h)
    simp only [ne_eq, h1, not_false_eq_true, if_true]
    simp [this]

/-- The witness of C7 as amended: two equal example states are accepted. -/
theorem CheckSyncStates_true_iff_witness :
    (CheckSyncStates (fun _ => "") (Examples.syncState 0x42) (Examples.syncState 0x42)).1 = true ↔
      (Examples.syncState 0x42).biosVersion = (Examples.syncState 0x42).biosVersion ∧
      (Examples.syncState 0x42).discId = (Examples.syncState 0x42).discId ∧
      (Examples.syncState 0x42).skipMpeg = (Examples.syncState 0x42).skipMpeg :=
  CheckSyncStates_true_iff (fun _ => "") (Examples.syncState 0x42) (Examples.syncState 0x42)
    rfl rfl

/-- C7 (the claim as stated fails): two sync states with byte-equal biosVersion,
equal skipMpeg, and disc identifiers that are equal up to their first zero byte
("A" in both) but differ in a byte after it, are refused by CheckSyncStates. -/
theorem CheckSyncStates_compares_past_zero_byte :
    (Examples.syncState 0x42).biosVersion = (Examples.syncState 0x43).biosVersion ∧
    (Examples.syncState 0x42).discId.take (discIdLen (Examples.syncState 0x42).discId) =
      (Examples.syncState 0x43).discId.take (discIdLen (Examples.syncState 0x43).discId) ∧
    (Examples.syncState 0x42).skipMpeg = (Examples.syncState 0x43).skipMpeg ∧
    (CheckSyncStates (fun _ => "") (Examples.syncState 0x42) (Examples.syncState 0x43)).1
      = false := by
  decide

/-- C8: for sync states whose arrays have the same sizes, a CheckSyncStates call
that returns false reports exactly one reason on the console and a call that returns
true reports none; when the biosVersion fields differ the reason is the Bios version
mismatch message whatever the other fields hold; otherwise, when the discId fields
differ, it is the message about booting different games; otherwise, when the
skipMpeg toggles differ, it is the SkipMpegHack settings mismatch message. -/
theorem CheckSyncStates_reason (g : List Nat → String) (s1 s2 : EmulatorSyncState)
    (hb : s1.biosVersion.length = s2.biosVersion.length)
    (hd : s1.discId.length = s2.discId.length) :
    ((CheckSyncStates g s1 s2).1 = false → ∃ msg,
      (CheckSyncStates g s1 s2).2 = [Call.ConsoleErrorMT msg]) ∧
    ((CheckSyncStates g s1 s2).1 = true → (CheckSyncStates g s1 s2).2 = []) ∧
    (s1.biosVersion ≠ s2.biosVersion →
      CheckSyncStates g s1 s2 =
        (false, [Call.ConsoleErrorMT "NETPLAY: Bios version mismatch."])) ∧
    (s1.biosVersion = s2.biosVersion → s1.discId ≠ s2.discId →
      CheckSyncStates g s1 s2 =
        (false, [Call.ConsoleErrorMT ("NETPLAY: You are trying to boot different games: " ++
          g (s1.discId.take (discIdLen s1.discId)) ++ " and " ++
          g (s2.discId.take (discIdLen s2.discId)))])) ∧
    (s1.biosVersion = s2.biosVersion → s1.discId = s2.discId → s1.skipMpeg ≠ s2.skipMpeg →
      CheckSyncStates g s1 s2 =
        (false, [Call.ConsoleErrorMT "NETPLAY: SkipMpegHack settings mismatch."])) := by
  have eb := memcmp_eq_zero_iff _ _ hb
  have ed := memcmp_eq_zero_iff _ _ hd
  unfold CheckSyncStates
  by_cases h1 : memcmp s1.biosVersion s2.biosVersion s1.biosVersion.length = 0
  · have e1 := eb.mp h1
    by_cases h2 : memcmp s1.discId s2.discId s1.discId.length = 0
    · have e2 := ed.mp h2
      by_cases h3 : s1.skipMpeg = s2.skipMpeg
      · simp only [ne_eq, h1, h2, h3, not_true_eq_false, if_false]
        simp [e1, e2]
      · simp only [ne_eq, h1, h2, h3, not_true_eq_false, not_false_eq_true, if_true, if_false]
        simp [e1, e2, h3]
    · have : ¬ s1.discId = s2.discId := fun h => h2 (ed.mpr h)
      simp only [ne_eq, h1, h2, not_true_eq_false, not_false_eq_true, if_true, if_false]
      simp [this, e1]
  · have : ¬ s1.biosVersion = s2.biosVersion := fun h => h1 (eb.mpr h)
    simp only [ne_eq, h1, not_false_eq_true, if_true]
    simp [this]

/-- The witness of C8: two example states that differ in the disc identifier only. -/
theorem CheckSyncStates_reason_witness :
    CheckSyncStates (fun _ => "?") (Examples.syncState 0x42) (Examples.syncState 0x43) =
      (false, [Call.ConsoleErrorMT ("NETPLAY: You are trying to boot different games: " ++
        "?" ++ " and " ++ "?")]) :=
  (CheckSyncStates_reason (fun _ => "?") (Examples.syncState 0x42) (Examples.syncState 0x43)
    rfl rfl).2.2.2.1 rfl (by decide)

/-- C3: HandleIO on an unassigned pad.  The session is live: the plugin is not
stopped and has a session when HandleIO is entered, and still when its first part
(the wait for the start, the cancel and the end-of-session checks) has left the
world `w1`.  Then for a pad that is not below `num_players` and an index within the
six input bytes, HandleIO returns the neutral byte of that index (0xFF for the two
button bytes, 0x7F for the analog bytes), the same for every raw controller byte,
and the call log holds as many `get` calls after the call as before it. -/
theorem HandleIO_unassigned_pad (fuel : Nat) (env : Env) (w w1 : World) (pad index : Int)
    (value : Nat)
    (hs : w.self._is_stopped = false) (hss : w.self._session = true)
    (hstart : HandleIO.start fuel env w = .ok w1)
    (hs1 : w1.self._is_stopped = false) (hss1 : w1.self._session = true)
    (hpad : env.num_players w1.log ≤ pad) (h0 : 0 ≤ index) (h6 : index < 6) :
    HandleIO fuel env w pad index value =
      .ok (if index < 2 then 0xff else 0x7f, w1.call Call.num_players) ∧
    (∀ value2, HandleIO fuel env w pad index value2 = HandleIO fuel env w pad index value) ∧
    (w1.call Call.num_players).log.countP Call.isGet = w.log.countP Call.isGet := by
  have hio : ∀ v, HandleIO fuel env w pad index v =
      .ok (if index < 2 then 0xff else 0x7f, w1.call Call.num_players) := by
    intro v
    have hn : Message.init.get index = if index < 2 then 0xff else 0x7f := by
      interval_cases index <;> rfl
    simp [ HandleIO, HandleIO.io, hs, hss, hstart, hs1, hss1, hpad, hn, bind, Except.bind,
      pure, Except.pure]
  refine ⟨hio value, fun v2 => by rw [hio v2, hio value], ?_⟩
  have h1 := LogExt.countP_eq Call.isGet starts_not_get ( HandleIO.start_spec _ _ _ _ hstart).1
  simp [World.call, List.countP_append, h1, Call.isGet]

/-- The witness of C3: pad 2 of the example session of two players, index 3. -/
theorem HandleIO_unassigned_pad_witness :
    HandleIO 1 (Examples.env 1) Examples.live 2 3 0x55 =
      .ok (0x7f, { Examples.live with
        log := [Call.delay, Call.end_session_request, Call.num_players] }) :=
  (HandleIO_unassigned_pad 1 (Examples.env 1) Examples.live
    { Examples.live with log := [Call.delay, Call.end_session_request] } 2 3 0x55
    rfl rfl rfl rfl rfl (by decide) (by decide) (by decide)).1

/-- C2 (the claim as stated fails): in the example session the local player has
side S = 1, the queue of side 1 delivers a record whose byte 0 is 0x20 and the queue
of side 0 one whose byte 0 is 0x10; HandleIO for pad 0 returns 0x10, the byte of
side 0, not the byte of side S. -/
theorem HandleIO_pad0_reads_side0 :
    (Examples.env 1).side = (fun _ => 1) ∧
    (Examples.env 1).get = (fun _ s _ => GetResult.ok (Examples.record s)) ∧
    (Examples.record 1).get 0 = 0x20 ∧
    ( HandleIO 1 (Examples.env 1) Examples.live 0 0 0x55).map Prod.fst = .ok 0x10 :=
  ⟨rfl, rfl, rfl, rfl⟩

/-- The witness of C1: with the example plugin hooked, the first poll of a 0x42
command returns the byte of the real pad plugin, and the poll at index 2 of pad 0
returns byte 0 of the record HandleIO gets. -/
theorem NETPADpoll_response_witness :
    (∃ s', NETPADpoll (NetplayPlugin.hook 1 (Examples.env 0)) Examples.pad Examples.hooked 0x42 =
      .ok (0x43, s')) ∧
    (NETPADpoll (NetplayPlugin.hook 1 (Examples.env 0)) Examples.pad Examples.polling 0x07).map
      Prod.fst = .ok 0x10 :=
  ⟨(NETPADpoll_response (NetplayPlugin.hook 1 (Examples.env 0)) Examples.pad Examples.hooked 0x42
      rfl (by decide)).1 (by decide),
   ((NETPADpoll_response (NetplayPlugin.hook 1 (Examples.env 0)) Examples.pad Examples.polling
      0x07 rfl (by decide)).2.1 (by decide) (by decide) (by decide) 0x07
      { Examples.polling with
        hook := Examples.live.call Call.side,
        trace := [PadCall.RemapVibrate 0],
        g_vibrationRemap := store2 Examples.polling.g_vibrationRemap 0 0 0x07 } rfl).trans rfl⟩

/-- C5: frame boundaries.  After HookIOP, for every sequence `ops` of well formed
NETPADsetSlot, NETPADstartPoll and NETPADpoll calls (pad plugin ports 1 and 2,
multitap slots 1 to 4) that runs to a state `s`, with B the number of frame
boundaries in it (a NETPADstartPoll on port 0 with slot 0 selected, made while the
latched command is 0x42): the hook frame counter is B, and NextFrame has been called
exactly B - 1 times (0 times when B = 0).  Call by call: the counter grows by one at
a boundary and stays as it is at every other call, and NextFrame is called once at a
boundary that is not the first and by no other call. -/
theorem frame_boundaries {σ : Type} (h : IOPHook σ) (pe : PadEnv) (s0 : IOP σ) (hook : σ)
    (ops : List Op) (s : IOP σ)
    (hslot : 0 ≤ s0.g_pollSlot 0 ∧ 0 ≤ s0.g_pollSlot 1) (hwf : ∀ op ∈ ops, op.wf)
    (hrun : run h pe (HookIOP s0 hook) ops = .ok s) :
    s.g_hookFrameNum = (boundaries h pe (HookIOP s0 hook) ops : Nat) ∧
    s.trace.countP PadCall.isNextFrame =
      s0.trace.countP PadCall.isNextFrame + (boundaries h pe (HookIOP s0 hook) ops - 1) ∧
    (∀ (s1 s2 : IOP σ) (op : Op), Hooked s1 → op.wf → step h pe s1 op = .ok s2 →
      s2.g_hookFrameNum = s1.g_hookFrameNum + (if isBoundary s1 op then 1 else 0) ∧
      s2.trace.countP PadCall.isNextFrame = s1.trace.countP PadCall.isNextFrame +
        (if isBoundary s1 op = true ∧ 0 < s1.g_hookFrameNum then 1 else 0)) := by
  have hk : Hooked (HookIOP s0 hook) :=
    ⟨rfl, hslot.1, hslot.2, le_refl _, le_refl _, Or.inl rfl⟩
  obtain ⟨-, a2, a3, -⟩ := run_counts h pe ops _ _ hk hwf hrun
  refine ⟨?_, ?_, ?_⟩
  · rw [a2]
    simp [HookIOP]
  · rw [a3]
    simp [HookIOP]
  · intro s1 s2 op h1 h2 h3
    obtain ⟨-, b2, b3, -⟩ := step_spec h pe s1 s2 op h1 h2 h3
    exact ⟨b2, b3⟩

/-- The witness of C5: three frames of the example plugin make three boundaries and
two NextFrame calls. -/
theorem frame_boundaries_witness :
    ∃ s, run (NetplayPlugin.hook 1 (Examples.env 0)) Examples.pad Examples.hooked
        Examples.threeFrames = .ok s ∧
      s.g_hookFrameNum = 3 ∧ s.trace.countP PadCall.isNextFrame = 2 :=
  have hr : run (NetplayPlugin.hook 1 (Examples.env 0)) Examples.pad Examples.hooked
      Examples.threeFrames =
        .ok ((run (NetplayPlugin.hook 1 (Examples.env 0)) Examples.pad Examples.hooked
          Examples.threeFrames).toOption.getD Examples.hooked) := rfl
  have T := frame_boundaries (NetplayPlugin.hook 1 (Examples.env 0)) Examples.pad
    (IOP.init Examples.live) Examples.live Examples.threeFrames _
    ⟨by decide, by decide⟩ (by decide) hr
  ⟨_, hr, T.1.trans rfl, T.2.1.trans rfl⟩

/-- C6: the local input is published once per 0x42 command polled on pad 0.  After
HookIOP, for every sequence of well formed wrapper calls that runs to a state `s`,
the AcceptInput calls made, plus one when the send flag is still set in `s`, are as
many as the 0x42 commands begun on pad 0.  A NETPADstartPoll, whatever its port,
calls AcceptInput(0) exactly when the send flag is set, clears the flag, and makes
that call before its NextFrame call; with the flag clear it makes no AcceptInput
call.  On NetplayPlugin with a live session AcceptInput publishes the pending local
frame with `set` and NextFrame clears the pending local frame. -/
theorem local_input_published_once {σ : Type} (h : IOPHook σ) (pe : PadEnv) (s0 : IOP σ)
    (hook : σ) (ops : List Op) (s : IOP σ)
    (hslot : 0 ≤ s0.g_pollSlot 0 ∧ 0 ≤ s0.g_pollSlot 1) (hwf : ∀ op ∈ ops, op.wf)
    (hrun : run h pe (HookIOP s0 hook) ops = .ok s) :
    s.trace.countP PadCall.isAcceptInput + (if s.g_sendPad ≠ 0 then 1 else 0) =
      s0.trace.countP PadCall.isAcceptInput + pad0Commands h pe (HookIOP s0 hook) ops ∧
    (∀ (s1 s2 : IOP σ) (port : Int) (b : Nat), NETPADstartPoll h pe s1 port = .ok (b, s2) →
      s2.g_sendPad = (if s1.g_IOPHook = true ∧ s1.g_sendPad ≠ 0 then 0 else s1.g_sendPad) ∧
      s2.trace = s1.trace ++
        (if s1.g_IOPHook = true ∧ s1.g_sendPad ≠ 0 then [PadCall.AcceptInput 0] else []) ++
        (if startsFrame s1 port ∧ 0 < s1.g_hookFrameNum then [PadCall.NextFrame] else []) ++
        [PadCall.PADstartPoll port]) ∧
    (∀ (fuel : Nat) (env : Env) (w w' : World),
      w.self._is_stopped = false → w.self._session = true →
      (AcceptInput fuel env w 0 = .ok w' →
        LogExt (fun c => !c.isSet) (w.log ++ [Call.set w.self._my_frame]) w'.log) ∧
      (NextFrame w).self._my_frame = Message.init) := by
  have hk : Hooked (HookIOP s0 hook) :=
    ⟨rfl, hslot.1, hslot.2, le_refl _, le_refl _, Or.inl rfl⟩
  obtain ⟨-, -, -, a4⟩ := run_counts h pe ops _ _ hk hwf hrun
  refine ⟨?_, ?_, ?_⟩
  · rw [a4]
    simp [HookIOP]
  · intro s1 s2 port b hr
    obtain ⟨-, -, -, -, -, -, a7, -, a9⟩ := NETPADstartPoll_spec h pe s1 s2 port b hr
    exact ⟨a7, a9⟩
  · intro fuel env w w' hs hss
    refine ⟨fun hA => AcceptInput_publishes fuel env w w' 0 hs hss hA, ?_⟩
    unfold NextFrame
    simp only [hs, hss, Bool.false_eq_true, not_true_eq_false, or_self, if_false]
    split
    · split <;> rfl
    · rfl

/-- The witness of C6: in the three frames of the example plugin three 0x42 commands
begin on pad 0, AcceptInput is called three times and the send flag ends clear. -/
theorem local_input_published_once_witness :
    ∃ s, run (NetplayPlugin.hook 1 (Examples.env 0)) Examples.pad Examples.hooked
        Examples.threeFrames = .ok s ∧
      s.trace.countP PadCall.isAcceptInput + (if s.g_sendPad ≠ 0 then 1 else 0) = 3 :=
  have hr : run (NetplayPlugin.hook 1 (Examples.env 0)) Examples.pad Examples.hooked
      Examples.threeFrames =
        .ok ((run (NetplayPlugin.hook 1 (Examples.env 0)) Examples.pad Examples.hooked
          Examples.threeFrames).toOption.getD Examples.hooked) := rfl
  have T := local_input_published_once (NetplayPlugin.hook 1 (Examples.env 0)) Examples.pad
    (IOP.init Examples.live) Examples.live Examples.threeFrames _
    ⟨by decide, by decide⟩ (by decide) hr
  ⟨_, hr, T.1.trans rfl⟩

/-- The pad of NET_CurrentPad in closed form, for a polled port 0 or 1. -/
theorem NET_CurrentPad_closed {σ : Type} (s : IOP σ)
    (hport : s.g_pollPort = 0 ∨ s.g_pollPort = 1) :
    NET_CurrentPad s =
      (if s.g_pollPort = 0 then
        (if s.g_pollSlot s.g_pollPort = 0 then 0 else s.g_pollSlot s.g_pollPort + 4)
       else s.g_pollSlot s.g_pollPort + 1) := by
  unfold NET_CurrentPad
  by_cases h0 : s.g_pollSlot s.g_pollPort = 0
  · rcases hport with h | h
    · simp [h0, h]
    · simp [h0, h]
  · rcases hport with h | h
    · simp [h0, h]
    · simp [h0, h]

/-- C15: the pad that NET_CurrentPad gives.  On the ports 0 and 1 with the slot
selected on the polled port within 0..3: port 0 slot 0 is pad 0, port 1 slot s is
pad 1 + s, and port 0 slot s from 1 on is pad 4 + s; the pad lies within 0..7, the
rows of the vibration table; two polled (port, slot) pairs with the same pad are
the same pair, and every pad of 0..7 is the pad of some pair.  After a
NETPADsetSlot with pad plugin port 1 or 2 and multitap slot 1..4 the polled port is
the port minus one, its slot the slot minus one, and the pad lies within 0..7. -/
theorem NET_CurrentPad_mapping {σ : Type} (s : IOP σ)
    (hport : s.g_pollPort = 0 ∨ s.g_pollPort = 1)
    (hslot : 0 ≤ s.g_pollSlot s.g_pollPort ∧ s.g_pollSlot s.g_pollPort ≤ 3) :
    (s.g_pollPort = 0 → s.g_pollSlot 0 = 0 → NET_CurrentPad s = 0) ∧
    (s.g_pollPort = 1 → NET_CurrentPad s = 1 + s.g_pollSlot 1) ∧
    (s.g_pollPort = 0 → 1 ≤ s.g_pollSlot 0 → NET_CurrentPad s = 4 + s.g_pollSlot 0) ∧
    (0 ≤ NET_CurrentPad s ∧ NET_CurrentPad s < 8) ∧
    (∀ t : IOP σ, (t.g_pollPort = 0 ∨ t.g_pollPort = 1) →
      (0 ≤ t.g_pollSlot t.g_pollPort ∧ t.g_pollSlot t.g_pollPort ≤ 3) →
      NET_CurrentPad t = NET_CurrentPad s →
      t.g_pollPort = s.g_pollPort ∧ t.g_pollSlot t.g_pollPort = s.g_pollSlot s.g_pollPort) ∧
    (∀ p : Int, 0 ≤ p → p < 8 → ∃ port slot : Int,
      (port = 0 ∨ port = 1) ∧ 0 ≤ slot ∧ slot ≤ 3 ∧
      ∀ t : IOP σ, t.g_pollPort = port → t.g_pollSlot port = slot → NET_CurrentPad t = p) ∧
    (∀ (pe : PadEnv) (port slot : Nat), (Op.setSlot port slot).wf →
      (NETPADsetSlot pe s port slot).2.g_pollPort = (port : Int) - 1 ∧
      (NETPADsetSlot pe s port slot).2.g_pollSlot ((port : Int) - 1) = (slot : Int) - 1 ∧
      0 ≤ NET_CurrentPad (NETPADsetSlot pe s port slot).2 ∧
      NET_CurrentPad (NETPADsetSlot pe s port slot).2 < 8) := by
  have hs := NET_CurrentPad_closed s hport
  refine ⟨?_, ?_, ?_, ?_, ?_, ?_, ?_⟩
  · intro h0 h1
    simp [NET_CurrentPad, h0, h1]
  · intro h1
    rw [hs]
    simp only [h1]
    norm_num
    omega
  · intro h0 h1
    rw [hs]
    have : s.g_pollSlot 0 ≠ 0 := by omega
    simp only [h0, this, if_true, if_false]
    omega
  · rw [hs]
    split_ifs <;> omega
  · intro t tport tslot heq
    rw [hs, NET_CurrentPad_closed t tport] at heq
    split_ifs at heq <;> constructor <;> omega
  · intro p hp0 hp8
    by_cases h0 : p = 0
    · refine ⟨0, 0, Or.inl rfl, le_refl _, by omega, ?_⟩
      intro t h1 h2
      simp [NET_CurrentPad, h1, h2, h0]
    · by_cases h4 : p ≤ 4
      · refine ⟨1, p - 1, Or.inr rfl, by omega, by omega, ?_⟩
        intro t h1 h2
        rw [NET_CurrentPad_closed t (Or.inr h1)]
        simp only [h1, h2]
        norm_num
      · refine ⟨0, p - 4, Or.inl rfl, by omega, by omega, ?_⟩
        intro t h1 h2
        rw [NET_CurrentPad_closed t (Or.inl h1)]
        have : p - 4 ≠ 0 := by omega
        simp only [h1, h2, this, if_true, if_false]
        omega
  · intro pe port slot hwf
    obtain ⟨hp, hl1, hl4⟩ := hwf
    have e1 : (NETPADsetSlot pe s port slot).2.g_pollPort = (port : Int) - 1 := rfl
    have e2 : (NETPADsetSlot pe s port slot).2.g_pollSlot ((port : Int) - 1) = (slot : Int) - 1 := by
      simp [NETPADsetSlot, store1]
    have hport2 : (NETPADsetSlot pe s port slot).2.g_pollPort = 0 ∨
        (NETPADsetSlot pe s port slot).2.g_pollPort = 1 := by
      rw [e1]; omega
    refine ⟨e1, e2, ?_, ?_⟩
    · rw [NET_CurrentPad_closed _ hport2, e1, e2]
      split_ifs <;> omega
    · rw [NET_CurrentPad_closed _ hport2, e1, e2]
      split_ifs <;> omega

/-- The witness of C15: in the example state polling pad 0 the pad is 0, the only
pair with that pad is port 0 slot 0, and after selecting slot 3 on pad plugin port 1
(port 0 slot 2) the pad is 6. -/
theorem NET_CurrentPad_mapping_witness :
    NET_CurrentPad Examples.polling = 0 ∧
    NET_CurrentPad (NETPADsetSlot Examples.pad Examples.polling 1 3).2 = 6 :=
  have T := NET_CurrentPad_mapping Examples.polling (Or.inl rfl) ⟨by decide, by decide⟩
  ⟨T.1 rfl rfl, by decide⟩

/-- C16: the poll wrapper is transparent outside the 0x42 command.  When no hook is
installed, or the latched command (the byte of this very poll at poll index 0, the
command latched before otherwise) is not 0x42, NETPADpoll(v) makes exactly one call,
PADpoll(v) with v unchanged, returns the byte PADpoll returned, and besides latching
the command and advancing the poll index leaves every variable and the hook object
as they were, for every poll index and every pad.  With no hook installed
NETPADstartPoll makes exactly one call, PADstartPoll, and so no AcceptInput or
NextFrame call, and returns what PADstartPoll returned. -/
theorem NETPADpoll_transparent {σ : Type} (h : IOPHook σ) (pe : PadEnv) (s : IOP σ)
    (v : Nat)
    (hout : s.g_IOPHook = false ∨
      (if s.g_pollIndex = 0 then (v : Int) else s.g_currentCommand) ≠ 0x42) :
    NETPADpoll h pe s v =
      .ok (pe.PADpoll s.trace v,
        { s with
          g_currentCommand := if s.g_pollIndex = 0 then (v : Int) else s.g_currentCommand,
          trace := s.trace ++ [PadCall.PADpoll v],
          g_pollIndex := s.g_pollIndex + 1 }) ∧
    (s.g_IOPHook = false → ∀ port : Int,
      NETPADstartPoll h pe s port =
        .ok (pe.PADstartPoll s.trace port,
          { s with g_pollPort := port - 1, g_pollIndex := 0,
                   trace := s.trace ++ [PadCall.PADstartPoll port] })) := by
  constructor
  · have hc : ¬ (s.g_IOPHook = true ∧
        (if s.g_pollIndex = 0 then (v : Int) else s.g_currentCommand) = 0x42) := by
      rcases hout with h1 | h1
      · simp [h1]
      · exact fun hh => h1 hh.2
    have hv : ¬ (s.g_IOPHook = true ∧
        (if s.g_pollIndex = 0 then (v : Int) else s.g_currentCommand) = 0x42 ∧
        s.g_pollIndex ≥ 2 ∧ s.g_pollIndex ≤ 3) := fun hh => hc ⟨hh.1, hh.2.1⟩
    simp only [NETPADpoll, NETPADpoll.vibrate, NETPADpoll.sync, hc, hv, if_false, bind,
      Except.bind, pure, Except.pure]
  · intro hno port
    simp [NETPADstartPoll, hno, bind, Except.bind, pure, Except.pure]

/-- The witness of C16: with no hook installed the poll of the byte 0x42 returns the
byte of the real pad plugin. -/
theorem NETPADpoll_transparent_witness :
    (NETPADpoll (NetplayPlugin.hook 1 (Examples.env 0)) Examples.pad
      (IOP.init Examples.live) 0x42).map Prod.fst = .ok 0x43 :=
  congrArg (Except.map Prod.fst)
    (NETPADpoll_transparent (NetplayPlugin.hook 1 (Examples.env 0)) Examples.pad
      (IOP.init Examples.live) 0x42 (Or.inl rfl)).1

/-- The calls of the dialog block of EndSession. -/
theorem EndSession.closeDialog_log (env : Env) (w : World) :
    (EndSession.closeDialog env w).log = w.log ++ dialogCalls env w.log := by
  unfold EndSession.closeDialog dialogCalls
  split <;> simp [World.call]

/-- The calls of the thread block of EndSession. -/
theorem EndSession.joinThread_log (env : Env) (w : World) :
    (EndSession.joinThread env w).log = w.log ++ joinCalls w := by
  unfold EndSession.joinThread joinCalls
  split <;> simp [World.call]

/-- With no session and no connect thread EndSession is its dialog block, for every
iteration bound. -/
theorem EndSession_released (fuel : Nat) (env : Env) (w : World)
    (hss : w.self._session = false) (hct : w.self._connect_thread = false) :
    EndSession fuel env w = .ok (EndSession.closeDialog env w) := by
  have e := (EndSession.closeDialog_spec env w).2
  have e1 : (EndSession.closeDialog env w).self._session = false := by rw [e]; exact hss
  have e2 : (EndSession.closeDialog env w).self._connect_thread = false := by rw [e]; exact hct
  have e3 : EndSession.joinThread env (EndSession.closeDialog env w) =
      EndSession.closeDialog env w := by
    unfold EndSession.joinThread
    simp [e2]
  unfold EndSession
  simp only [EndSession.closeSession, e1, Bool.false_eq_true, if_false, bind, Except.bind, pure,
    Except.pure, e3]
  congr 1
  cases hv : EndSession.closeDialog env w with
  | mk sf lg =>
    rw [hv] at e1
    cases sf
    simp only at e1
    subst e1
    rfl

/-- The dialog pointer that EndSession leaves: null when the dialog was shown, as
it was otherwise. -/
theorem EndSession_dialog (fuel : Nat) (env : Env) (w w1 : World)
    (h : EndSession fuel env w = .ok w1) :
    w1.self._dialog = (if env.IsShown w.log then false else w.self._dialog) := by
  unfold EndSession at h
  simp only [bind, Except.bind, pure, Except.pure] at h
  split at h
  · simp at h
  · rename_i v hv
    simp only [Except.ok.injEq] at h
    subst h
    obtain ⟨-, a2⟩ := EndSession.closeDialog_spec env w
    obtain ⟨-, b2⟩ := EndSession.closeSession_spec _ _ _ _ hv
    obtain ⟨-, -, -, -, -, -, c7, -⟩ := EndSession.joinThread_spec env v
    show (EndSession.joinThread env v).self._dialog = _
    rw [c7, b2, a2]

/-- C12: shutdown is idempotent.  For every plugin state in which EndSession
returns, a second EndSession right after it returns too, for every iteration bound;
the only calls it makes are on the dialog (IsShown, and Close when the dialog is
shown), so it makes no session call and joins no thread; it leaves every member as
the first run left it except possibly `_dialog`, and `_dialog` too when the dialog
is not shown at the second run unless it was at the first. -/
theorem EndSession_idempotent (fuel : Nat) (env : Env) (w w1 : World)
    (h1 : EndSession fuel env w = .ok w1) :
    ∃ w2, EndSession fuel env w1 = .ok w2 ∧
      w2.log = w1.log ++ dialogCalls env w1.log ∧
      w2.self = { w1.self with
        _dialog := if env.IsShown w1.log then false else w1.self._dialog } ∧
      ((env.IsShown w1.log = true → env.IsShown w.log = true) → w2.self = w1.self) := by
  obtain ⟨-, a2, a3, -⟩ := EndSession_spec _ _ _ _ h1
  have hd := EndSession_dialog _ _ _ _ h1
  refine ⟨_, EndSession_released fuel env w1 a2 a3, EndSession.closeDialog_log env w1,
    (EndSession.closeDialog_spec env w1).2, ?_⟩
  intro hshown
  rw [(EndSession.closeDialog_spec env w1).2]
  by_cases hs : env.IsShown w1.log = true
  · have hw := hshown hs
    simp only [hw, if_true] at hd
    simp only [hs, if_true]
    cases hv : w1.self
    rw [hv] at hd
    simp only at hd
    subst hd
    rfl
  · simp only [hs, Bool.false_eq_true, if_false]

/-- The witness of C12: on the running example plugin the second EndSession leaves
the plugin as the first left it. -/
theorem EndSession_idempotent_witness :
    ∃ w1 w2, EndSession 8 (Examples.env 0) Examples.live = .ok w1 ∧
      EndSession 8 (Examples.env 0) w1 = .ok w2 ∧
      w2.log = w1.log ++ [Call.IsShown, Call.Close] ∧ w2.self = w1.self :=
  have hr : EndSession 8 (Examples.env 0) Examples.live =
      .ok ((EndSession 8 (Examples.env 0) Examples.live).toOption.getD Examples.live) := rfl
  (EndSession_idempotent 8 (Examples.env 0) Examples.live _ hr).elim
    fun w2 hw2 => ⟨_, w2, hr, hw2.1, hw2.2.1, hw2.2.2.2 (fun _ => rfl)⟩

/-- The sends among the calls of the drain loop. -/
theorem drainCalls_sends (k : Nat) :
    (drainCalls k).countP Call.isSend = k ∧
    (drainCalls k).countP Call.isEndSessionRequest = 0 := by
  induction k with
  | zero => simp [drainCalls]
  | succ k ih =>
    simp only [drainCalls, List.countP_cons, ih.1, ih.2]
    simp [Call.isSend, Call.isEndSessionRequest]

/-- The calls of the drain loop, started with a count that is not negative: some
k sends that report something outstanding, each followed by the sleep, and then
either one send that reports nothing outstanding, or the end by the count, which
comes after exactly count + 1 sends. -/
theorem EndSession.drain_shape (env : Env) (n : Nat) :
    ∀ (w w' : World) (t : Nat), EndSession.drain env n w (t : Int) = .ok w' →
      ∃ k, k ≤ t ∧ (∀ j, j < k → env.send (w.log ++ drainCalls j) = true) ∧
        ((env.send (w.log ++ drainCalls k) = false ∧
            w'.log = w.log ++ drainCalls k ++ [Call.send]) ∨
          (k = t ∧ env.send (w.log ++ drainCalls k) = true ∧
            w'.log = w.log ++ drainCalls (k + 1))) := by
  induction n with
  | zero =>
    intro w w' t h
    simp [EndSession.drain] at h
  | succ n ih =>
    intro w w' t h
    simp only [EndSession.drain] at h
    by_cases hs : env.send w.log = true
    · simp only [hs, if_true] at h
      by_cases ht : (t : Int) = 0
      · simp only [ht, if_true, Except.ok.injEq] at h
        subst h
        have ht0 : t = 0 := by omega
        subst ht0
        refine ⟨0, le_refl _, fun j hj => absurd hj (by omega), Or.inr ⟨rfl, ?_, ?_⟩⟩
        · simpa [drainCalls] using hs
        · simp [drainCalls, World.call]
      · simp only [ht, if_false] at h
        obtain ⟨u, rfl⟩ : ∃ u, t = u + 1 := ⟨t - 1, by omega⟩
        have e : ((u + 1 : Nat) : Int) - 1 = (u : Int) := by omega
        rw [e] at h
        obtain ⟨k, hk, hall, hend⟩ := ih _ _ u h
        have hlog : ∀ j, ((w.call Call.send).call (Call.sleep 17)).log ++ drainCalls j =
            w.log ++ drainCalls (j + 1) := by
          intro j
          simp [World.call, drainCalls]
        refine ⟨k + 1, by omega, ?_, ?_⟩
        · intro j hj
          cases j with
          | zero => simpa [drainCalls] using hs
          | succ j =>
            rw [← hlog j]
            exact hall j (by omega)
        · rcases hend with ⟨h1, h2⟩ | ⟨h1, h2, h3⟩
          · left
            rw [hlog k] at h1 h2
            exact ⟨h1, h2⟩
          · right
            rw [hlog k] at h2
            rw [hlog (k + 1)] at h3
            exact ⟨by omega, h2, h3⟩
    · simp only [hs, Bool.false_eq_true, if_false, Except.ok.injEq] at h
      subst h
      refine ⟨0, Nat.zero_le _, fun j hj => absurd hj (by omega), Or.inl ⟨?_, ?_⟩⟩
      · simpa [drainCalls] using hs
      · simp [drainCalls, World.call]

/-- The dialog block and the thread block of EndSession make no send and no
end-session request. -/
theorem dialogCalls_sends (env : Env) (l : List Call) (w : World) :
    (dialogCalls env l).countP Call.isSend = 0 ∧
    (dialogCalls env l).countP Call.isEndSessionRequest = 0 ∧
    (joinCalls w).countP Call.isSend = 0 ∧
    (joinCalls w).countP Call.isEndSessionRequest = 0 := by
  unfold dialogCalls joinCalls
  refine ⟨?_, ?_, ?_, ?_⟩ <;> split <;> simp [Call.isSend, Call.isEndSessionRequest]

/-- C13: the drain loop of EndSession terminates.  When EndSession runs with a
session that is in the Ready state and reports the delay d (not negative), with an
iteration bound above 4*d, it returns; it has made the end-session request exactly
once and k send calls with 1 <= k <= 4*d + 1; every send but the last reported
something outstanding, and the last either reported nothing outstanding or was the
send number 4*d + 1. -/
theorem EndSession_drain_terminates (fuel : Nat) (env : Env) (w : World) (d : Nat)
    (hss : w.self._session = true)
    (hready : env.state (w.log ++ dialogCalls env w.log) = MessageType.Ready)
    (hd : env.delay (w.log ++ dialogCalls env w.log ++
      [Call.state, Call.send_end_session_request]) = (d : Int))
    (hfuel : 4 * d < fuel) :
    ∃ w' k, EndSession fuel env w = .ok w' ∧ 1 ≤ k ∧ k ≤ 4 * d + 1 ∧
      w'.log.countP Call.isEndSessionRequest = w.log.countP Call.isEndSessionRequest + 1 ∧
      w'.log.countP Call.isSend = w.log.countP Call.isSend + k ∧
      (∀ j, j + 1 < k →
        env.send (w.log ++ dialogCalls env w.log ++
          [Call.state, Call.send_end_session_request, Call.delay] ++ drainCalls j) = true) ∧
      (env.send (w.log ++ dialogCalls env w.log ++
          [Call.state, Call.send_end_session_request, Call.delay] ++ drainCalls (k - 1)) = false ∨
        k = 4 * d + 1) := by
  have hcd := EndSession.closeDialog_log env w
  have hcs : (EndSession.closeDialog env w).self._session = true := by
    rw [(EndSession.closeDialog_spec env w).2]; exact hss
  generalize hcdw : EndSession.closeDialog env w = cd at hcd hcs
  rw [← hcd] at hready hd ⊢
  have hd2 : env.delay ((cd.call Call.state).call Call.send_end_session_request).log * 4 =
      ((4 * d : Nat) : Int) := by
    have : ((cd.call Call.state).call Call.send_end_session_request).log =
        cd.log ++ [Call.state, Call.send_end_session_request] := by simp [World.call]
    rw [this, hd]
    push_cast
    ring
  obtain ⟨wd, hwd⟩ := EndSession.drain_returns env (4 * d) fuel
    (((cd.call Call.state).call Call.send_end_session_request).call Call.delay) hfuel
  obtain ⟨k, hk, hall, hend⟩ := EndSession.drain_shape env fuel _ wd (4 * d) hwd
  have hE : EndSession fuel env w = .ok { (EndSession.joinThread env
      ((wd.call Call.shutdown).call Call.unbind)) with self._session := false } := by
    unfold EndSession
    simp only [hcdw, EndSession.closeSession, hcs, hready, if_true, hd2, hwd, bind, Except.bind,
      pure, Except.pure]
  have hL : (((cd.call Call.state).call Call.send_end_session_request).call Call.delay).log =
      cd.log ++ [Call.state, Call.send_end_session_request, Call.delay] := by
    simp [World.call]
  rw [hL] at hall hend
  have hlog : ∀ wd : World, ({ (EndSession.joinThread env
      ((wd.call Call.shutdown).call Call.unbind)) with self._session := false } : World).log =
      wd.log ++ [Call.shutdown, Call.unbind] ++
        joinCalls ((wd.call Call.shutdown).call Call.unbind) := by
    intro wd
    show (EndSession.joinThread env _).log = _
    rw [EndSession.joinThread_log]
    simp [World.call]
  obtain ⟨c1, c2, -, -⟩ := dialogCalls_sends env w.log w
  have j := fun v => (dialogCalls_sends env w.log v).2.2
  rcases hend with ⟨h1, h2⟩ | ⟨h1, h2, h3⟩
  · refine ⟨_, k + 1, hE, by omega, by omega, ?_, ?_, ?_, ?_⟩
    · rw [hlog, h2, hcd]
      simp [List.countP_append, c2, (j _).2, (drainCalls_sends k).2, Call.isEndSessionRequest]
    · rw [hlog, h2, hcd]
      simp [List.countP_append, c1, (j _).1, (drainCalls_sends k).1, Call.isSend]
    · intro i hi
      exact hall i (by omega)
    · left
      simpa using h1
  · refine ⟨_, k + 1, hE, by omega, by omega, ?_, ?_, ?_, ?_⟩
    · rw [hlog, h3, hcd]
      simp [List.countP_append, c2, (j _).2, (drainCalls_sends (k + 1)).2,
        Call.isEndSessionRequest]
    · rw [hlog, h3, hcd]
      simp [List.countP_append, c1, (j _).1, (drainCalls_sends (k + 1)).1, Call.isSend]
    · intro i hi
      exact hall i (by omega)
    · right
      omega

/-- The witness of C13: the example session is Ready with delay 2 and its send
always reports something outstanding; EndSession returns after at most 9 sends. -/
theorem EndSession_drain_terminates_witness :
    ∃ w' k, EndSession 9 Examples.busy Examples.live = .ok w' ∧ 1 ≤ k ∧ k ≤ 4 * 2 + 1 ∧
      w'.log.countP Call.isEndSessionRequest =
        Examples.live.log.countP Call.isEndSessionRequest + 1 ∧
      w'.log.countP Call.isSend = Examples.live.log.countP Call.isSend + k :=
  (EndSession_drain_terminates 9 Examples.busy Examples.live 2 rfl rfl rfl (by decide)).elim
    fun w' hw' => hw'.elim fun k hk => ⟨w', k, hk.1, hk.2.1, hk.2.2.1, hk.2.2.2.1, hk.2.2.2.2.1⟩

/-- When `set` throws while a replay is recorded, AcceptInput never returns
normally: once Stop has released the session, the replay block uses it. -/
theorem AcceptInput_replay_after_failed_set (fuel : Nat) (env : Env) (w : World) (side : Int)
    (hs : w.self._is_stopped = false) (hss : w.self._session = true)
    (hrep : w.self._replay = true) (hset : env.set w.log w.self._my_frame = false) :
    AcceptInput fuel env w side = .error Fault.null_session ∨
    AcceptInput fuel env w side = .error Fault.fuel := by
  unfold AcceptInput
  simp only [hs, hss, Bool.false_eq_true, not_true_eq_false, or_self, if_false, bind,
    Except.bind, AcceptInput.publish, hset, pure, Except.pure]
  cases hst : Stop fuel env (w.call (Call.set w.self._my_frame)) with
  | error e =>
    right
    simp only
    unfold Stop at hst
    simp only [bind, Except.bind, pure, Except.pure] at hst
    split at hst
    · rename_i e2 he
      simp only [Except.error.injEq] at hst
      subst hst
      unfold EndSession at he
      simp only [bind, Except.bind, pure, Except.pure] at he
      split at he
      · rename_i e3 hc
        simp only [Except.error.injEq] at he
        subst he
        unfold EndSession.closeSession at hc
        split at hc
        · split at hc
          · simp only [bind, Except.bind, pure, Except.pure] at hc
            split at hc
            · rename_i e4 hdr
              simp only [Except.error.injEq] at hc
              subst hc
              have : ∀ (n : Nat) (v : World) (t : Int) (e : Fault),
                  EndSession.drain env n v t = .error e → e = Fault.fuel := by
                intro n
                induction n with
                | zero =>
                  intro v t e h
                  simp only [EndSession.drain, Except.error.injEq] at h
                  exact h.symm
                | succ n ih =>
                  intro v t e h
                  simp only [EndSession.drain] at h
                  split at h
                  · split at h
                    · simp at h
                    · exact ih _ _ _ h
                  · simp at h
              rw [this _ _ _ _ hdr]
            · simp at hc
          · simp [pure, Except.pure] at hc
        · simp [pure, Except.pure] at hc
      · simp at he
    · simp at hst
  | ok v =>
    left
    obtain ⟨-, a2, -, -, -, a6, -⟩ := Stop_spec _ _ _ _ hst
    simp only [AcceptInput.record, World.call, a6]
    have hr : w.self._replay = true := hrep
    simp [World.call, hr, a2]

/-- C17 (the code at the failing input): on the running example plugin that
records a replay, with a session whose `set` throws, AcceptInput stops the plugin,
which releases the session, and then uses the released session for the `get` of
the replay block; the same call on the plugin that records no replay returns with
the session released and no `get` call made. -/
theorem AcceptInput_uses_released_session :
    AcceptInput 4 Examples.setFails Examples.recording 0 = .error Fault.null_session ∧
    (AcceptInput 4 Examples.setFails Examples.live 0).map
      (fun w => (w.self._session, w.self._is_stopped, w.log.countP Call.isGet)) =
        .ok (false, true, 0) := by
  constructor <;> rfl

/-- The byte that `put` stores at an index within the record is the byte that
`get` reads there. -/
theorem Message.get_put (m : Message) (index : Int) (value : Nat)
    (h0 : 0 ≤ index) (hlen : index.toNat < m.input.length) :
    (m.put index value).get index = value := by
  have hn : ¬ index < 0 := by omega
  simp [Message.put, Message.get, hn, List.getD, hlen]

/-- On a live session, HandleIO for an assigned pad is the input wait started
after the local frame was written. -/
theorem HandleIO_assigned_eq (fuel : Nat) (env : Env) (w w1 : World) (pad index : Int)
    (value : Nat)
    (hs : w.self._is_stopped = false) (hss : w.self._session = true)
    (hstart : HandleIO.start fuel env w = .ok w1)
    (hs1 : w1.self._is_stopped = false) (hss1 : w1.self._session = true)
    (hpad : pad < env.num_players w1.log) :
    HandleIO fuel env w pad index value =
      ( HandleIO.recv fuel env pad
        (env.time_ms (w1.log ++ [Call.num_players]) + 10000) fuel
        ({ (w1.call Call.num_players) with self._my_frame :=
            if pad = 0 then w1.self._my_frame.put index value else w1.self._my_frame }.call
          Call.time_ms) Message.init).map (fun p => (p.1.get index, p.2)) := by
  have hnp : ¬ (pad ≥ env.num_players w1.log) := by omega
  simp only [ HandleIO, HandleIO.io, hs, hss, hstart, hs1, hss1, hnp, bind, Except.bind,
    pure, Except.pure, Bool.false_eq_true, not_true_eq_false, or_self, if_false]
  rfl

/-- C14: only pad 0 drives the pending local frame.  On a live session (as in C3)
with at least one player, every HandleIO(pad, index, value) that returns leaves the
pending local frame with value stored at position index when pad is 0, and as it
was for every other pad; the byte stored is the byte read back at that index; the
call returns when the pad is unassigned or the first `get` delivers a record; and
the pending local frame is what AcceptInput publishes with `set`. -/
theorem HandleIO_local_frame (fuel : Nat) (env : Env) (w w1 : World) (pad index : Int)
    (value : Nat)
    (hs : w.self._is_stopped = false) (hss : w.self._session = true)
    (hstart : HandleIO.start fuel env w = .ok w1)
    (hs1 : w1.self._is_stopped = false) (hss1 : w1.self._session = true)
    (hnp : 0 < env.num_players w1.log) :
    (∀ b w', HandleIO fuel env w pad index value = .ok (b, w') →
      w'.self._my_frame =
        (if pad = 0 then w.self._my_frame.put index value else w.self._my_frame) ∧
      (pad = 0 → 0 ≤ index → index.toNat < w.self._my_frame.input.length →
        w'.self._my_frame.get index = value)) ∧
    ((env.num_players w1.log ≤ pad ∨
        (0 < fuel ∧ ∃ r, ∀ t,
          env.get (w1.log ++ [Call.num_players, Call.time_ms, Call.time_ms]) pad t
            = GetResult.ok r)) →
      ∃ b w', HandleIO fuel env w pad index value = .ok (b, w')) ∧
    (∀ (v v' : World) (side : Int), v.self._is_stopped = false → v.self._session = true →
      AcceptInput fuel env v side = .ok v' →
      LogExt (fun c => !c.isSet) (v.log ++ [Call.set v.self._my_frame]) v'.log) := by
  have hk := ( HandleIO.start_spec _ _ _ _ hstart).2.1
  have hframe : ∀ b w', HandleIO fuel env w pad index value = .ok (b, w') →
      w'.self._my_frame =
        (if pad = 0 then w.self._my_frame.put index value else w.self._my_frame) := by
    intro b w' h
    by_cases hpad : pad < env.num_players w1.log
    · rw [HandleIO_assigned_eq fuel env w w1 pad index value hs hss hstart hs1 hss1 hpad] at h
      cases hr : HandleIO.recv fuel env pad
          (env.time_ms (w1.log ++ [Call.num_players]) + 10000) fuel
          ({ (w1.call Call.num_players) with self._my_frame :=
              if pad = 0 then w1.self._my_frame.put index value else w1.self._my_frame }.call
            Call.time_ms) Message.init with
      | error e => simp [hr, Except.map] at h
      | ok p =>
        obtain ⟨fr, w2⟩ := p
        simp only [hr, Except.map, Except.ok.injEq, Prod.mk.injEq] at h
        obtain ⟨-, rfl⟩ := h
        obtain ⟨-, a2, -⟩ := HandleIO.recv_spec _ _ _ _ _ _ _ _ _ hr
        rw [a2.1]
        show (if pad = 0 then w1.self._my_frame.put index value else w1.self._my_frame) = _
        rw [hk]
    · have hge : env.num_players w1.log ≤ pad := by omega
      have hp0 : ¬ pad = 0 := by omega
      simp only [ HandleIO, HandleIO.io, hs, hss, hstart, hs1, hss1, hge, bind, Except.bind,
        pure, Except.pure, Bool.false_eq_true, not_true_eq_false, or_self, if_false, ge_iff_le,
        if_true, Except.ok.injEq, Prod.mk.injEq] at h
      obtain ⟨-, rfl⟩ := h
      simp only [hp0, if_false]
      exact hk
  refine ⟨fun b w' h => ⟨hframe b w' h, ?_⟩, ?_, ?_⟩
  · intro hp0 hi0 hlen
    rw [hframe b w' h]
    simp only [hp0, if_true]
    exact Message.get_put _ _ _ hi0 hlen
  · intro hret
    rcases hret with hge | ⟨hf, r, hg⟩
    · refine ⟨Message.init.get index, w1.call Call.num_players, ?_⟩
      simp [ HandleIO, HandleIO.io, hs, hss, hstart, hs1, hss1, hge, bind, Except.bind,
        pure, Except.pure]
    · by_cases hpad : pad < env.num_players w1.log
      · rw [HandleIO_assigned_eq fuel env w w1 pad index value hs hss hstart hs1 hss1 hpad]
        obtain ⟨n, rfl⟩ : ∃ n, fuel = n + 1 := ⟨fuel - 1, by omega⟩
        have hg2 := hg ( HandleIO.untilTimeout
          (env.time_ms (w1.log ++ [Call.num_players]) + 10000)
          (env.time_ms (w1.log ++ [Call.num_players, Call.time_ms])))
        simp only [World.call, List.append_assoc, List.singleton_append] at hg2 ⊢
        simp [ HandleIO.recv, World.call, hg2, Except.map]
      · have hge : env.num_players w1.log ≤ pad := by omega
        refine ⟨Message.init.get index, w1.call Call.num_players, ?_⟩
        simp [ HandleIO, HandleIO.io, hs, hss, hstart, hs1, hss1, hge, bind, Except.bind,
          pure, Except.pure]
  · intro v v' side h1 h2 h3
    exact AcceptInput_publishes fuel env v v' side h1 h2 h3

/-- The witness of C14: in the example session HandleIO for pad 0 stores the byte
0x55 at index 0 of the pending local frame. -/
theorem HandleIO_local_frame_witness :
    ∃ b w', HandleIO 1 (Examples.env 1) Examples.live 0 0 0x55 = .ok (b, w') ∧
      w'.self._my_frame.get 0 = 0x55 :=
  have T := HandleIO_local_frame 1 (Examples.env 1) Examples.live
    { Examples.live with log := [Call.delay, Call.end_session_request] } 0 0 0x55
    rfl rfl rfl rfl rfl (by decide)
  (T.2.1 (Or.inr ⟨by decide, Examples.record 0, fun _ => rfl⟩)).elim fun b hb =>
    hb.elim fun w' h => ⟨b, w', h, (T.1 b w' h).2 rfl (by decide) (by decide)⟩

/-- The dialog block of EndSession only makes idle calls. -/
theorem EndSession.closeDialog_idle (env : Env) (w : World) :
    LogExt Call.idle w.log (EndSession.closeDialog env w).log := by
  unfold EndSession.closeDialog
  split
  · exact LogExt.snoc _ rfl (LogExt.snoc _ rfl (LogExt.refl _ _))
  · exact LogExt.snoc _ rfl (LogExt.refl _ _)

/-- One method call other than Open on a plugin with no session and no connect
thread: the call returns, for every iteration bound; it leaves no session, no
connect thread and the same `_state`, and it only makes idle calls. -/
theorem pluginOp_apply_released (fuel : Nat) (env : Env) (w : World) (op : PluginOp)
    (hss : w.self._session = false) (hct : w.self._connect_thread = false) :
    ∃ w', PluginOp.apply fuel env w op = .ok w' ∧ w'.self._session = false ∧
      w'.self._connect_thread = false ∧ w'.self._state = w.self._state ∧
      LogExt Call.idle w.log w'.log := by
  have hend : ∀ v : World, v.self._session = false → v.self._connect_thread = false →
      ∃ v', EndSession fuel env v = .ok v' ∧ v'.self._session = false ∧
        v'.self._connect_thread = false ∧ v'.self._state = v.self._state ∧
        LogExt Call.idle v.log v'.log := by
    intro v h1 h2
    have e := (EndSession.closeDialog_spec env v).2
    refine ⟨_, EndSession_released fuel env v h1 h2, ?_, ?_, ?_,
      EndSession.closeDialog_idle env v⟩
    · rw [e]; exact h1
    · rw [e]; exact h2
    · rw [e]
  cases op with
  | Init => exact ⟨_, rfl, hss, hct, rfl, LogExt.refl _ _⟩
  | EndSession => exact hend w hss hct
  | Stop =>
    obtain ⟨v', h1, h2, h3, h4, h5⟩ := hend { w with self._is_stopped := true } hss hct
    refine ⟨v'.call Call.CoreThread_Reset, ?_, h2, h3, h4, LogExt.snoc _ rfl h5⟩
    simp only [PluginOp.apply, Stop, h1, bind, Except.bind, pure, Except.pure]
  | NextFrame =>
    refine ⟨w, ?_, hss, hct, rfl, LogExt.refl _ _⟩
    simp [PluginOp.apply, NextFrame, hss]
  | AcceptInput side =>
    refine ⟨w, ?_, hss, hct, rfl, LogExt.refl _ _⟩
    simp [PluginOp.apply, AcceptInput, hss]
  | RemapVibrate pad =>
    refine ⟨w, ?_, hss, hct, rfl, LogExt.refl _ _⟩
    simp [PluginOp.apply, RemapVibrate, hss]
  | HandleIO side index value =>
    refine ⟨w, ?_, hss, hct, rfl, LogExt.refl _ _⟩
    simp [PluginOp.apply, HandleIO, hss, Except.map, pure, Except.pure]

/-- A sequence of method calls other than Open on a plugin with no session and no
connect thread, summed up call by call. -/
theorem pluginOp_applyAll_released (fuel : Nat) (env : Env) (ops : List PluginOp) :
    ∀ w : World, w.self._session = false → w.self._connect_thread = false →
      ∃ w', PluginOp.applyAll fuel env w ops = .ok w' ∧ w'.self._session = false ∧
        w'.self._connect_thread = false ∧ w'.self._state = w.self._state ∧
        LogExt Call.idle w.log w'.log := by
  induction ops with
  | nil =>
    intro w hss hct
    exact ⟨w, rfl, hss, hct, rfl, LogExt.refl _ _⟩
  | cons op ops ih =>
    intro w hss hct
    obtain ⟨w1, a1, a2, a3, a4, a5⟩ := pluginOp_apply_released fuel env w op hss hct
    obtain ⟨w2, b1, b2, b3, b4, b5⟩ := ih w1 a2 a3
    refine ⟨w2, ?_, b2, b3, b4.trans a4, LogExt.trans a5 b5⟩
    simp only [PluginOp.applyAll, a1, b1]

/-- C11: frame publication is blocked after Stop.  Once Stop has run, `_is_stopped`
is set and the session is released; then every sequence of later method calls other
than Open (Init, EndSession, Stop, NextFrame, AcceptInput, RemapVibrate, HandleIO)
returns, leaves the plugin without a session and with the same `_state`, and adds no
`set` and no `next_frame` call to the log: the only calls made are on the dialog and
the core thread.  Call by call: on a plugin that is stopped or has no session
AcceptInput and NextFrame change nothing and make no call at all. -/
theorem publication_blocked_after_Stop (fuel : Nat) (env : Env) (w0 w : World)
    (ops : List PluginOp) (hstop : Stop fuel env w0 = .ok w) :
    w.self._is_stopped = true ∧ w.self._session = false ∧
    (∃ w', PluginOp.applyAll fuel env w ops = .ok w' ∧ w'.self._session = false ∧
      w'.self._state = w.self._state ∧
      w'.log.countP Call.isSet = w.log.countP Call.isSet ∧
      w'.log.countP Call.isNextFrameCall = w.log.countP Call.isNextFrameCall ∧
      LogExt Call.idle w.log w'.log) ∧
    (∀ v : World, v.self._is_stopped = true ∨ v.self._session = false →
      (∀ side, AcceptInput fuel env v side = .ok v) ∧ NextFrame v = v) := by
  obtain ⟨-, a2, a3, a4, -⟩ := Stop_spec _ _ _ _ hstop
  refine ⟨a4, a2, ?_, ?_⟩
  · obtain ⟨w', b1, b2, -, b4, b5⟩ := pluginOp_applyAll_released fuel env ops w a2 a3
    refine ⟨w', b1, b2, b4, ?_, ?_, b5⟩
    · exact LogExt.countP_eq Call.isSet
        (fun c hc => by cases c <;> simp_all [Call.idle, Call.isSet]) b5
    · exact LogExt.countP_eq Call.isNextFrameCall
        (fun c hc => by cases c <;> simp_all [Call.idle, Call.isNextFrameCall]) b5
  · intro v hv
    constructor
    · intro side
      rcases hv with h | h
      · simp [AcceptInput, h]
      · simp [AcceptInput, h]
    · rcases hv with h | h
      · simp [NextFrame, h]
      · simp [NextFrame, h]

/-- The witness of C11: after Stop on the running example plugin, a sequence of
later calls with two AcceptInput and two NextFrame calls adds no `set` and no
`next_frame` call. -/
theorem publication_blocked_after_Stop_witness :
    ∃ w w', Stop 8 (Examples.env 0) Examples.live = .ok w ∧
      PluginOp.applyAll 8 (Examples.env 0) w Examples.later = .ok w' ∧
      w'.self._session = false ∧ w'.self._state = w.self._state ∧
      w'.log.countP Call.isSet = w.log.countP Call.isSet ∧
      w'.log.countP Call.isNextFrameCall = w.log.countP Call.isNextFrameCall :=
  have hr : Stop 8 (Examples.env 0) Examples.live =
      .ok ((Stop 8 (Examples.env 0) Examples.live).toOption.getD Examples.live) := rfl
  (publication_blocked_after_Stop 8 (Examples.env 0) Examples.live _ Examples.later
    hr).2.2.1.elim fun w' h => ⟨_, w', hr, h.1, h.2.1, h.2.2.1, h.2.2.2.1, h.2.2.2.2.1⟩

/-- One turn of the input wait of HandleIO that goes on: the wait continues from
the log with the calls of that turn added. -/
theorem HandleIO.recv_goesOn (fuel : Nat) (env : Env) (side timeout : Int) (n : Nat)
    (w : World) (frame : Message) (h : HandleIO.goesOn env side timeout w.log) :
    HandleIO.recv fuel env side timeout (n + 1) w frame =
      HandleIO.recv fuel env side timeout n
        { w with log := w.log ++ HandleIO.retryCalls env side timeout w.log } frame := by
  obtain ⟨h1, h2, h3⟩ := h
  simp only [ HandleIO.getAnswer, HandleIO.getCall] at h1 h2 h3
  simp only [ HandleIO.recv, World.call, List.append_assoc, List.singleton_append,
    List.cons_append, List.nil_append, h1, h2, h3, if_false, Bool.false_eq_true,
    HandleIO.retryCalls, HandleIO.getCall]

/-- After `k` turns that go on, the input wait of HandleIO continues from the log
of those turns. -/
theorem HandleIO.recv_retries (fuel : Nat) (env : Env) (side timeout : Int) (k : Nat) :
    ∀ (n : Nat) (w : World) (frame : Message),
      (∀ i, i < k →
        HandleIO.goesOn env side timeout ( HandleIO.waitLog env side timeout i w.log)) →
      HandleIO.recv fuel env side timeout (k + n) w frame =
        HandleIO.recv fuel env side timeout n
          { w with log := HandleIO.waitLog env side timeout k w.log } frame := by
  induction k with
  | zero =>
    intro n w frame _
    simp [ HandleIO.waitLog]
  | succ k ih =>
    intro n w frame h
    have e : k + 1 + n = (k + n) + 1 := by omega
    rw [e, HandleIO.recv_goesOn fuel env side timeout (k + n) w frame (h 0 (by omega))]
    rw [ih n { w with log := w.log ++ HandleIO.retryCalls env side timeout w.log } frame
      (fun i hi => h (i + 1) (by omega))]
    rfl

/-- A turn of the input wait of HandleIO in which `get` delivers a record ends the
wait with that record. -/
theorem HandleIO.recv_delivers (fuel : Nat) (env : Env) (side timeout : Int) (n : Nat)
    (w : World) (frame r : Message)
    (h : HandleIO.getAnswer env side timeout w.log = GetResult.ok r) :
    HandleIO.recv fuel env side timeout (n + 1) w frame =
      .ok (r, { w with log := w.log ++ [Call.time_ms, HandleIO.getCall env side timeout w.log] }) := by
  simp only [ HandleIO.getAnswer] at h
  simp only [ HandleIO.recv, World.call, h, List.append_assoc, List.singleton_append,
    HandleIO.getCall]

/-- A turn of the input wait of HandleIO that neither delivers a record nor goes on
ends the wait with the record the wait was given, when Stop returns. -/
theorem HandleIO.recv_ends (fuel : Nat) (env : Env) (side timeout : Int) (n : Nat)
    (w : World) (frame : Message)
    (hd : ∀ l, 0 ≤ env.delay l ∧ 4 * env.delay l < fuel)
    (h1 : ∀ r, HandleIO.getAnswer env side timeout w.log ≠ GetResult.ok r)
    (h2 : ¬ HandleIO.goesOn env side timeout w.log) :
    ∃ w', HandleIO.recv fuel env side timeout (n + 1) w frame = .ok (frame, w') := by
  simp only [ HandleIO.getAnswer] at h1
  simp only [ HandleIO.goesOn, HandleIO.getAnswer, HandleIO.getCall] at h2
  simp only [ HandleIO.recv, World.call, List.append_assoc, List.singleton_append,
    List.cons_append, List.nil_append]
  split
  · rename_i r hr
    exact absurd hr (h1 r)
  · obtain ⟨v, hv⟩ := Stop_returns fuel env
      { w with log := w.log ++ [Call.time_ms,
        Call.get side ( HandleIO.untilTimeout timeout (env.time_ms w.log))] } (Or.inr hd)
    simp only [bind, Except.bind, pure, Except.pure, hv]
    exact ⟨_, rfl⟩
  · rename_i hr
    split
    · exact ⟨_, rfl⟩
    · rename_i hreq
      split
      · obtain ⟨v, hv⟩ := Stop_returns fuel env
          { w with log := w.log ++ [Call.time_ms,
            Call.get side ( HandleIO.untilTimeout timeout (env.time_ms w.log)), Call.send,
            Call.end_session_request, Call.time_ms, Call.frame] } (Or.inr hd)
        simp only [bind, Except.bind, pure, Except.pure, hv]
        exact ⟨_, rfl⟩
      · rename_i hto
        exact absurd ⟨hr, by simpa using hreq, hto⟩ h2

/-- Every run of the input wait of HandleIO that returns is a number of turns that
go on followed by one that does not: either `get` delivers in that turn, the wait
returns that record and the `get` is the last call of the log, or that turn ends the
wait without a record and the wait returns the record it was given. -/
theorem HandleIO.recv_exact (fuel : Nat) (env : Env) (side timeout : Int) (n : Nat) :
    ∀ (w w' : World) (frame f : Message),
      HandleIO.recv fuel env side timeout n w frame = .ok (f, w') →
      ∃ k, k < n ∧
        (∀ i, i < k →
          HandleIO.goesOn env side timeout ( HandleIO.waitLog env side timeout i w.log)) ∧
        (( HandleIO.getAnswer env side timeout ( HandleIO.waitLog env side timeout k w.log)
              = GetResult.ok f ∧
            w' = { w with log := HandleIO.waitLog env side timeout k w.log ++
              [Call.time_ms,
                HandleIO.getCall env side timeout ( HandleIO.waitLog env side timeout k w.log)] }) ∨
          ((∀ r, HandleIO.getAnswer env side timeout ( HandleIO.waitLog env side timeout k w.log)
              ≠ GetResult.ok r) ∧
            ¬ HandleIO.goesOn env side timeout ( HandleIO.waitLog env side timeout k w.log) ∧
            f = frame)) := by
  induction n with
  | zero =>
    intro w w' frame f h
    simp [ HandleIO.recv] at h
  | succ n ih =>
    intro w w' frame f h
    cases hg : HandleIO.getAnswer env side timeout w.log with
    | ok r =>
      rw [ HandleIO.recv_delivers fuel env side timeout n w frame r hg] at h
      simp only [Except.ok.injEq, Prod.mk.injEq] at h
      obtain ⟨rfl, rfl⟩ := h
      exact ⟨0, by omega, fun i hi => absurd hi (by omega), Or.inl ⟨hg, rfl⟩⟩
    | thrown =>
      have hn : ¬ HandleIO.goesOn env side timeout w.log := fun hc => by
        rw [hc.1] at hg
        exact absurd hg (by simp)
      refine ⟨0, by omega, fun i hi => absurd hi (by omega), Or.inr ⟨?_, hn, ?_⟩⟩
      · intro r hr
        rw [ HandleIO.waitLog, hg] at hr
        exact absurd hr (by simp)
      · simp only [ HandleIO.getAnswer] at hg
        simp only [ HandleIO.recv, World.call, hg, bind, Except.bind, pure, Except.pure] at h
        split at h
        · simp at h
        · simp only [Except.ok.injEq, Prod.mk.injEq] at h
          exact h.1.symm
    | timeout =>
      by_cases hgo : HandleIO.goesOn env side timeout w.log
      · rw [ HandleIO.recv_goesOn fuel env side timeout n w frame hgo] at h
        obtain ⟨k, hk, hi, hend⟩ := ih _ _ _ _ h
        refine ⟨k + 1, by omega, ?_, hend⟩
        intro i hlt
        cases i with
        | zero => exact hgo
        | succ j => exact hi j (by omega)
      · refine ⟨0, by omega, fun i hi => absurd hi (by omega), Or.inr ⟨?_, hgo, ?_⟩⟩
        · intro r hr
          rw [ HandleIO.waitLog, hg] at hr
          exact absurd hr (by simp)
        · have hg2 := hg
          simp only [ HandleIO.getAnswer] at hg2
          simp only [ HandleIO.recv, World.call, hg2, bind, Except.bind, pure, Except.pure] at h
          split at h
          · simp only [Except.ok.injEq, Prod.mk.injEq] at h
            exact h.1.symm
          · rename_i hreq
            split at h
            · split at h
              · simp at h
              · simp only [Except.ok.injEq, Prod.mk.injEq] at h
                exact h.1.symm
            · rename_i hto
              refine absurd ⟨hg, ?_, ?_⟩ hgo
              · simpa [ HandleIO.getCall, List.append_assoc] using hreq
              · simpa [ HandleIO.getCall, List.append_assoc] using hto

/-- C2 (as amended): HandleIO on an assigned pad.  The session is live as in C3,
the pad is below `num_players`, `D` is the deadline of the input wait and `L0` the
log with which the wait starts.  Then (1) every call HandleIO makes is one of its
first part or of its input wait for this pad, so every `get` is on the queue of the
side equal to the pad, for pad 0 as for the others; and a call that returns has made
some number `k` of turns that went on, followed by one turn that did not: either the
`get` of that turn delivered a record, that `get` is the last call of the log and the
byte returned is byte `index` of that very record, or that turn delivered no record
and the byte returned is byte `index` of the neutral record.  (2) When `k` turns go
on and the `get` of the next turn delivers a record, HandleIO returns byte `index`
of that record, with exactly the calls of those turns logged.  (3) When `k` turns go
on and the next turn neither delivers nor goes on, HandleIO returns byte `index` of
the neutral record, provided Stop returns. -/
theorem HandleIO_assigned_pad (fuel : Nat) (env : Env) (w w1 : World) (pad index : Int)
    (value : Nat) (D : Int) (L0 : List Call)
    (hs : w.self._is_stopped = false) (hss : w.self._session = true)
    (hstart : HandleIO.start fuel env w = .ok w1)
    (hs1 : w1.self._is_stopped = false) (hss1 : w1.self._session = true)
    (hpad : pad < env.num_players w1.log)
    (hD : D = HandleIO.deadline env w1.log) (hL : L0 = HandleIO.waitStart w1.log) :
    (∀ b w', HandleIO fuel env w pad index value = .ok (b, w') →
      LogExt (fun c => c.starts || c.receives pad) w.log w'.log ∧
      ∃ k, k < fuel ∧
        (∀ i, i < k → HandleIO.goesOn env pad D ( HandleIO.waitLog env pad D i L0)) ∧
        ((∃ r, HandleIO.getAnswer env pad D ( HandleIO.waitLog env pad D k L0) = GetResult.ok r ∧
            b = r.get index ∧
            w'.log = HandleIO.waitLog env pad D k L0 ++
              [Call.time_ms, HandleIO.getCall env pad D ( HandleIO.waitLog env pad D k L0)]) ∨
          ((∀ r, HandleIO.getAnswer env pad D ( HandleIO.waitLog env pad D k L0)
              ≠ GetResult.ok r) ∧
            ¬ HandleIO.goesOn env pad D ( HandleIO.waitLog env pad D k L0) ∧
            b = Message.init.get index))) ∧
    (∀ k r, k < fuel →
      (∀ i, i < k → HandleIO.goesOn env pad D ( HandleIO.waitLog env pad D i L0)) →
      HandleIO.getAnswer env pad D ( HandleIO.waitLog env pad D k L0) = GetResult.ok r →
      HandleIO fuel env w pad index value =
        .ok (r.get index,
          { self := { w1.self with _my_frame :=
              if pad = 0 then w1.self._my_frame.put index value else w1.self._my_frame },
            log := HandleIO.waitLog env pad D k L0 ++
              [Call.time_ms, HandleIO.getCall env pad D ( HandleIO.waitLog env pad D k L0)] })) ∧
    (∀ k, k < fuel →
      (∀ i, i < k → HandleIO.goesOn env pad D ( HandleIO.waitLog env pad D i L0)) →
      (∀ r, HandleIO.getAnswer env pad D ( HandleIO.waitLog env pad D k L0) ≠ GetResult.ok r) →
      ¬ HandleIO.goesOn env pad D ( HandleIO.waitLog env pad D k L0) →
      (∀ l, 0 ≤ env.delay l ∧ 4 * env.delay l < fuel) →
      ∃ w', HandleIO fuel env w pad index value = .ok (Message.init.get index, w')) := by
  subst hD hL
  have hW :
      ({ (w1.call Call.num_players) with self._my_frame :=
          if pad = 0 then w1.self._my_frame.put index value else w1.self._my_frame }.call
        Call.time_ms) =
      { self := { w1.self with _my_frame :=
          if pad = 0 then w1.self._my_frame.put index value else w1.self._my_frame },
        log := HandleIO.waitStart w1.log } := by
    simp [World.call, HandleIO.waitStart]
  have hH := HandleIO_assigned_eq fuel env w w1 pad index value hs hss hstart hs1 hss1 hpad
  refine ⟨?_, ?_, ?_⟩
  · intro b w' h
    rw [hH] at h
    cases hr : HandleIO.recv fuel env pad
        (env.time_ms (w1.log ++ [Call.num_players]) + 10000) fuel
        ({ (w1.call Call.num_players) with self._my_frame :=
            if pad = 0 then w1.self._my_frame.put index value else w1.self._my_frame }.call
          Call.time_ms) Message.init with
    | error e => simp [hr, Except.map] at h
    | ok p =>
      obtain ⟨fr, w2⟩ := p
      simp only [hr, Except.map, Except.ok.injEq, Prod.mk.injEq] at h
      obtain ⟨rfl, rfl⟩ := h
      obtain ⟨a1, -, -⟩ := HandleIO.recv_spec _ _ _ _ _ _ _ _ _ hr
      have b1 := ( HandleIO.start_spec _ _ _ _ hstart).1
      refine ⟨LogExt.trans (LogExt.mono ?_ b1) (LogExt.trans ?_ (LogExt.mono ?_ a1)), ?_⟩
      · intro c hc
        simp [hc]
      · refine LogExt.snoc _ ?_ (LogExt.snoc _ ?_ (LogExt.refl _ _))
        · simp [Call.receives]
        · simp [Call.receives]
      · intro c hc
        simp [hc]
      · rw [hW] at hr
        obtain ⟨k, hk, hi, hend⟩ := HandleIO.recv_exact _ _ _ _ _ _ _ _ _ hr
        refine ⟨k, hk, hi, ?_⟩
        rcases hend with ⟨e1, e2⟩ | ⟨e1, e2, e3⟩
        · exact Or.inl ⟨fr, e1, rfl, congrArg World.log e2⟩
        · exact Or.inr ⟨e1, e2, by rw [e3]⟩
  · intro k r hk hi hg
    obtain ⟨n, rfl⟩ : ∃ n, fuel = k + (n + 1) := ⟨fuel - k - 1, by omega⟩
    rw [hH, hW]
    have e1 := HandleIO.recv_retries (k + (n + 1)) env pad ( HandleIO.deadline env w1.log) k (n + 1)
      { self := { w1.self with _my_frame :=
          if pad = 0 then w1.self._my_frame.put index value else w1.self._my_frame },
        log := HandleIO.waitStart w1.log } Message.init hi
    have e2 := HandleIO.recv_delivers (k + (n + 1)) env pad ( HandleIO.deadline env w1.log) n
      { self := { w1.self with _my_frame :=
          if pad = 0 then w1.self._my_frame.put index value else w1.self._my_frame },
        log := HandleIO.waitLog env pad ( HandleIO.deadline env w1.log) k
          ( HandleIO.waitStart w1.log) } Message.init r hg
    simp only [ HandleIO.deadline] at e1 e2 ⊢
    rw [e1, e2]
    rfl
  · intro k hk hi hg hgo hd
    obtain ⟨n, rfl⟩ : ∃ n, fuel = k + (n + 1) := ⟨fuel - k - 1, by omega⟩
    rw [hH, hW]
    have e1 := HandleIO.recv_retries (k + (n + 1)) env pad ( HandleIO.deadline env w1.log) k (n + 1)
      { self := { w1.self with _my_frame :=
          if pad = 0 then w1.self._my_frame.put index value else w1.self._my_frame },
        log := HandleIO.waitStart w1.log } Message.init hi
    obtain ⟨v, e2⟩ := HandleIO.recv_ends (k + (n + 1)) env pad ( HandleIO.deadline env w1.log) n
      { self := { w1.self with _my_frame :=
          if pad = 0 then w1.self._my_frame.put index value else w1.self._my_frame },
        log := HandleIO.waitLog env pad ( HandleIO.deadline env w1.log) k
          ( HandleIO.waitStart w1.log) } Message.init hd hg hgo
    simp only [ HandleIO.deadline] at e1 e2 ⊢
    rw [e1, e2]
    exact ⟨v, rfl⟩

/-- The witness of C2 as amended, in the example session in which the local player
has side 1.  When every `get` delivers at once, pad 0 gets byte 0 of the record of
side 0.  When the first `get` times out and the second delivers, pad 0 gets byte 0
of the record that second `get` delivered, 0x10, after the calls of both turns. -/
theorem HandleIO_assigned_pad_witness :
    HandleIO 1 (Examples.env 1) Examples.live 0 0 0x55 =
      .ok (0x10,
        { self := { Examples.live.self with
            _my_frame := Examples.live.self._my_frame.put 0 0x55 },
          log := [Call.delay, Call.end_session_request, Call.num_players, Call.time_ms,
            Call.time_ms, Call.get 0 10000] }) ∧
    HandleIO 2 Examples.slow Examples.live 0 0 0x55 =
      .ok (0x10,
        { self := { Examples.live.self with
            _my_frame := Examples.live.self._my_frame.put 0 0x55 },
          log := [Call.delay, Call.end_session_request, Call.num_players, Call.time_ms,
            Call.time_ms, Call.get 0 10000, Call.send, Call.end_session_request, Call.time_ms,
            Call.time_ms, Call.get 0 10000] }) :=
  ⟨(HandleIO_assigned_pad 1 (Examples.env 1) Examples.live
      { Examples.live with log := [Call.delay, Call.end_session_request] } 0 0 0x55 _ _
      rfl rfl rfl rfl rfl (by decide) rfl rfl).2.1 0 (Examples.record 0) (by decide)
      (fun i hi => absurd hi (by omega)) rfl,
    (HandleIO_assigned_pad 2 Examples.slow Examples.live
      { Examples.live with log := [Call.delay, Call.end_session_request] } 0 0 0x55 _ _
      rfl rfl rfl rfl rfl (by decide) rfl rfl).2.1 1 (Examples.record 0) (by decide)
      (fun i hi => by
        obtain rfl : i = 0 := by omega
        exact ⟨rfl, rfl, by decide⟩) rfl⟩

end Netplay
